import Mathlib

/-!
# go-metrics: the periodic log reporter (`log.go`)

A shallow embedding of `Log` and `LogCompact` and of the collaborators they
call, followed by the properties of the reporting pass.

Conventions of the embedding

* `int64` values are `Int`; the reporter only prints them.
* `float64` values are modelled by the rational number they denote (`ℚ`).
  Every `float64` operation the reporter performs (the conversion of an
  integer or of a constant, a division, an addition) rounds its exact result
  to the nearest `float64`, ties to even (`round64`). NaN, the infinities and
  the sign of zero are outside the model.
* A panic is modelled by `none`: the goroutine running the reporter stops, and
  what was written to the logger before the panic stays written.
* One `l.Printf(format, args...)` is recorded as a `Call`; `Call.text` is the
  text `fmt.Sprintf` produces for it.
-/

namespace Metrics

/-! ## Operands and format strings -/

/-- An operand passed to `Printf`: a `string`, an `int64`, a `float64` or an
`error` (where `none` is the nil error). -/
inductive Value where
  | str (s : String)
  | int (n : Int)
  | float (x : ℚ)
  | error (e : Option String)
  deriving DecidableEq

/-- A parsed piece of a format string: literal text, or a verb with its
optional width and precision (`%9d`, `%12.2f`, `%s`, `%v`). -/
inductive Piece where
  | lit (text : List Char)
  | verb (width : Option Nat) (prec : Option Nat) (c : Char)
  deriving DecidableEq

/-- What the format scanner is reading: literal text, the width after a `%`,
or the precision after the `.`. -/
inductive Mode where
  | text
  | width (w : Option Nat)
  | prec (w : Option Nat) (p : Nat)

/-- Emit the literal text collected so far (kept reversed), if any. -/
def flush (acc : List Char) (rest : List Piece) : List Piece :=
  match acc with
  | [] => rest
  | _ :: _ => Piece.lit acc.reverse :: rest

/-- The scanner of `fmt` format strings, for the directives `log.go` uses:
`%%` is a literal percent sign, a verb is `%`, an optional decimal width, an
optional `.` and decimal precision, and the verb character. A format that ends
inside a directive yields Go's `%!(NOVERB)`. -/
def parseFormat : List Char → Mode → List Char → List Piece
  | [], .text, acc => flush acc []
  | [], _, acc => flush ("%!(NOVERB)".data.reverse ++ acc) []
  | c :: cs, .text, acc =>
    if c = '%' then parseFormat cs (.width none) acc
    else parseFormat cs .text (c :: acc)
  | c :: cs, .width w, acc =>
    if c.isDigit then parseFormat cs (.width (some (10 * w.getD 0 + (c.toNat - 48)))) acc
    else if c = '.' then parseFormat cs (.prec w 0) acc
    else if c = '%' then parseFormat cs .text ('%' :: acc)
    else flush acc (Piece.verb w none c :: parseFormat cs .text [])
  | c :: cs, .prec w p, acc =>
    if c.isDigit then parseFormat cs (.prec w (10 * p + (c.toNat - 48))) acc
    else flush acc (Piece.verb w (some p) c :: parseFormat cs .text [])

/-- The pieces of a format string. -/
def pieces (format : String) : List Piece :=
  parseFormat format.data .text []

/-- Right-justify in a field of `w` characters: pad with spaces on the left,
never truncate. -/
def padLeft (w : Option Nat) (s : List Char) : List Char :=
  List.replicate (w.getD 0 - s.length) ' ' ++ s

/-- Round a non-negative rational to the nearest integer, ties to even: the
rounding of `strconv` when it shortens the exact decimal expansion of a float,
and of the `float64` arithmetic. -/
def roundHalfEven (x : ℚ) : Int :=
  let f := ⌊x⌋
  if x - f < 1 / 2 then f
  else if 1 / 2 < x - f then f + 1
  else if f % 2 = 0 then f else f + 1

/-- The verb `%.<prec>f`: sign, integer digits, and `prec` fraction digits. -/
def formatFloat (prec : Nat) (x : ℚ) : List Char :=
  let m := (roundHalfEven (|x| * 10 ^ prec)).toNat
  let frac := (Nat.repr (m % 10 ^ prec)).data
  (if x < 0 then ['-'] else []) ++ (Nat.repr (m / 10 ^ prec)).data ++
    (if prec = 0 then [] else '.' :: (List.replicate (prec - frac.length) '0' ++ frac))

/-- One verb applied to one operand. The pairs below are the ones `log.go`
produces; any other pair is rendered as the marker `%!c(BADVERB)`, which
stands for Go's `%!c(type=value)`. -/
def formatVerb (w p : Option Nat) (c : Char) (v : Value) : List Char :=
  if c = 'd' then
    match v with
    | .int n => padLeft w (toString n).data
    | _ => '%' :: '!' :: c :: "(BADVERB)".data
  else if c = 's' then
    match v with
    | .str s => padLeft w s.data
    | _ => '%' :: '!' :: c :: "(BADVERB)".data
  else if c = 'f' then
    match v with
    | .float x => padLeft w (formatFloat (p.getD 6) x)
    | _ => '%' :: '!' :: c :: "(BADVERB)".data
  else if c = 'v' then
    match v with
    | .error none => padLeft w "<nil>".data
    | .error (some msg) => padLeft w msg.data
    | _ => '%' :: '!' :: c :: "(BADVERB)".data
  else '%' :: '!' :: c :: "(BADVERB)".data

/-- Fill the pieces of a format with the operands, left to right. -/
def renderPieces : List Piece → List Value → List Char
  | [], [] => []
  | [], _ :: _ => "%!(EXTRA)".data
  | .lit t :: ps, vs => t ++ renderPieces ps vs
  | .verb _ _ c :: ps, [] => '%' :: '!' :: c :: "(MISSING)".data ++ renderPieces ps []
  | .verb w p c :: ps, v :: vs => formatVerb w p c v ++ renderPieces ps vs

/-- The text of `fmt.Sprintf(format, args...)`. -/
def Sprintf (format : String) (args : List Value) : String :=
  ⟨renderPieces (pieces format) args⟩

/-- One call `l.Printf(format, args...)` on the logger. -/
structure Call where
  format : String
  args : List Value
  deriving DecidableEq

/-- Record a call of `l.Printf`. -/
def Printf (format : String) (args : List Value) : Call :=
  ⟨format, args⟩

/-- The line the logger receives for a call. -/
def Call.text (c : Call) : String :=
  Sprintf c.format c.args

/-- The label in front of a verb: the literal text before it, from the last
comma on, without the surrounding blanks and the colon. -/
def label (t : List Char) : String :=
  ⟨(((t.reverse.takeWhile (fun c => c ≠ ',')).dropWhile
      (fun c => c = ' ' ∨ c = ':')).reverse).dropWhile (fun c => c = ' ')⟩

/-- Pair every verb of a format with its label and its operand. -/
def fieldsAux : List Piece → List Value → List Char → List (String × Value)
  | [], _, _ => []
  | .lit t :: ps, vs, _ => fieldsAux ps vs t
  | .verb _ _ _ :: _, [], _ => []
  | .verb _ _ _ :: ps, v :: vs, t => (label t, v) :: fieldsAux ps vs []

/-- The labelled values a call shows. -/
def Call.fields (c : Call) : List (String × Value) :=
  fieldsAux (pieces c.format) c.args []

/-- The labelled values a block of calls shows, in order. -/
def fieldsOf (calls : List Call) : List (String × Value) :=
  calls.flatMap Call.fields

/-- The value shown under a label, if the label occurs. -/
def shown (calls : List Call) (l : String) : Option Value :=
  (fieldsOf calls).lookup l

/-! ## The float64 arithmetic -/

/-- The power `2^e` for an integer exponent. -/
def pow2 : Int → ℚ
  | .ofNat n => 2 ^ n
  | .negSucc n => 1 / 2 ^ (n + 1)

/-- Count the halvings that bring `n` below 2, with `fuel` as a bound on their
number. -/
def log2Aux : Nat → Nat → Nat
  | 0, _ => 0
  | fuel + 1, n => if 2 ≤ n then log2Aux fuel (n / 2) + 1 else 0

/-- The position of the leading bit of a positive natural number. -/
def log2 (n : Nat) : Nat :=
  log2Aux n n

/-- The binary exponent of a positive rational: the `e` with
`2^e ≤ x < 2^(e+1)`. -/
def exponent (x : ℚ) : Int :=
  let e : Int := (log2 x.num.natAbs : Int) - (log2 x.den : Int)
  if pow2 e ≤ x then e else e - 1

/-- Rounding to the nearest `float64` (IEEE 754 binary64), ties to even: the
result is a multiple of the unit in the last place, `2^(e-52)`, where `e` is
the exponent of the number and at least -1022 (below, the numbers are
subnormal). Results beyond the largest finite `float64` are outside the
model. -/
def round64 (x : ℚ) : ℚ :=
  if x = 0 then 0
  else
    let ulp := pow2 (max (exponent |x|) (-1022) - 52)
    (if x < 0 then -1 else 1) * ((roundHalfEven (|x| / ulp) : Int) : ℚ) * ulp

/-- A floating-point constant of the source, as the `float64` it denotes. -/
def float64 (x : ℚ) : ℚ :=
  round64 x

/-- The conversion `float64(n)` of an integer. -/
def float64OfInt (n : Int) : ℚ :=
  round64 (n : ℚ)

/-- The `float64` quotient `x / y`. -/
def fdiv (x y : ℚ) : ℚ :=
  round64 (x / y)

/-- The `float64` sum `x + y`. -/
def fadd (x y : ℚ) : ℚ :=
  round64 (x + y)

/-! ## Durations -/

/-- The constant `time.Second`: a `time.Duration` counts nanoseconds. -/
def Second : Int := 1000000000

/-- The conversion `time.Duration(x)` of an `int64`: the same integer, read as
nanoseconds. -/
def Duration (x : Int) : Int := x

/-- The conversion `time.Duration(x)` of a `float64` to the `int64` behind a
duration. Go discards the fraction. When the result does not fit an `int64`
the language leaves it to the implementation; the value here is the one of
amd64, whose conversion instruction then yields the smallest `int64`. -/
def DurationOfFloat (x : ℚ) : Int :=
  let d := Int.tdiv x.num x.den
  if -9223372036854775808 ≤ d ∧ d ≤ 9223372036854775807 then d else -9223372036854775808

/-- The method `time.Duration.Seconds` of the Go standard library:
`sec := d / Second; nsec := d % Second; return float64(sec) + float64(nsec)/1e9`,
with Go's truncated integer division and remainder and `float64`
arithmetic. -/
def Seconds (d : Int) : ℚ :=
  let sec := Int.tdiv d Second
  let nsec := Int.tmod d Second
  fadd (float64OfInt sec) (fdiv (float64OfInt nsec) 1000000000)

/-- A number without its fraction: the nearest integer in the direction of
zero. -/
def towardZero (x : ℚ) : Int :=
  if 0 ≤ x then ⌊x⌋ else ⌈x⌉

/-- The numbers that, without their fraction, fit an `int64`. -/
def inInt64 (x : ℚ) : Prop :=
  -9223372036854775809 < x ∧ x < 9223372036854775808

/-! ## Instruments -/

/-- A `Counter`, as far as the reporter reads it: `Count()`. -/
structure Counter where
  Count : Int

/-- A `Gauge`: `Value()`. -/
structure Gauge where
  Value : Int

/-- A `GaugeFloat64`: `Value()`. -/
structure GaugeFloat64 where
  Value : ℚ

/-- What running a healthcheck's probe does: it reports no error, reports an
error value, or signals an unrecoverable fault (a panic). -/
inductive Probe where
  | healthy
  | unhealthy (msg : String)
  | fault

/-- A `Healthcheck`: the latest error (`none` is the nil error) and the
user-supplied probe. -/
structure Healthcheck where
  err : Option String
  probe : Probe

/-- Modelled from the spec: the method `Healthcheck.Check`, defined in
healthcheck.go, which is not among the sources. It runs the probe
synchronously; the probe's result becomes the healthcheck's latest error, and
a fault of the probe is a panic of the caller (`none`). -/
def Healthcheck.Check (h : Healthcheck) : Option Healthcheck :=
  match h.probe with
  | .healthy => some { h with err := none }
  | .unhealthy msg => some { h with err := some msg }
  | .fault => none

/-- Modelled from the spec: the method `Healthcheck.Error`, defined in
healthcheck.go, which is not among the sources. It exposes the latest
error. -/
def Healthcheck.Error (h : Healthcheck) : Option String :=
  h.err

/-- Modelled from the spec: the snapshot of a `Histogram`, defined in
histogram.go and sample.go, which are not among the sources, as far as the
reporter reads it: `Count()`, `Min()`, `Max()`, `Mean()`, `StdDev()` and the
method `Percentiles`. The method is a parameter; what is known of it is that
it answers a request with one value per requested quantile. -/
structure HistogramSnapshot where
  Count : Int
  Min : Int
  Max : Int
  Mean : ℚ
  StdDev : ℚ
  Percentiles : List ℚ → List ℚ
  Percentiles_length : ∀ ps, (Percentiles ps).length = ps.length

/-- The histogram snapshot that answers quantile by quantile. -/
def HistogramSnapshot.ofQuantile (count min max : Int) (mean stdDev : ℚ) (q : ℚ → ℚ) :
    HistogramSnapshot :=
  ⟨count, min, max, mean, stdDev, fun ps => ps.map q, fun ps => List.length_map ps q⟩

/-- The snapshot of a `Meter`: `Count()` and the four rates. -/
structure MeterSnapshot where
  Count : Int
  Rate1 : ℚ
  Rate5 : ℚ
  Rate15 : ℚ
  RateMean : ℚ

/-- Modelled from the spec: the snapshot of a `Timer`, defined in timer.go,
which is not among the sources, as far as the reporter reads it: the methods
of a histogram snapshot and the four rates of a meter snapshot. `Percentiles`
is a parameter; what is known of it is that it answers a request with one
value per requested quantile. -/
structure TimerSnapshot where
  Count : Int
  Min : Int
  Max : Int
  Mean : ℚ
  StdDev : ℚ
  Percentiles : List ℚ → List ℚ
  Rate1 : ℚ
  Rate5 : ℚ
  Rate15 : ℚ
  RateMean : ℚ
  Percentiles_length : ∀ ps, (Percentiles ps).length = ps.length

/-- The timer snapshot that answers quantile by quantile. -/
def TimerSnapshot.ofQuantile (count min max : Int) (mean stdDev : ℚ) (q : ℚ → ℚ)
    (rate1 rate5 rate15 rateMean : ℚ) : TimerSnapshot :=
  ⟨count, min, max, mean, stdDev, fun ps => ps.map q, rate1, rate5, rate15, rateMean,
    fun ps => List.length_map ps q⟩

/-- A `Histogram`: `Snapshot()` is its state at the time of the read. -/
structure Histogram where
  Snapshot : HistogramSnapshot

/-- A `Meter`: `Snapshot()` is its state at the time of the read. -/
structure Meter where
  Snapshot : MeterSnapshot

/-- A `Timer`: `Snapshot()` is its state at the time of the read. -/
structure Timer where
  Snapshot : TimerSnapshot

/-- The dynamic type of a registry entry, as the type switch of `Log` and
`LogCompact` sees it: the case it selects, or `other` when the value is of
none of the seven types. -/
inductive Instrument where
  | counter (metric : Counter)
  | gauge (metric : Gauge)
  | gaugeFloat64 (metric : GaugeFloat64)
  | healthcheck (metric : Healthcheck)
  | histogram (metric : Histogram)
  | meter (metric : Meter)
  | timer (metric : Timer)
  | other (typeName : String)

/-- The slice index `ps[k]`. Go panics on an index out of range; `Percentiles`
answers with one value per requested quantile and the request has five, so the
indices 0 to 4 used by the reporter are in range and the default is never
taken. -/
def index (ps : List ℚ) (k : Nat) : ℚ :=
  ps.getD k 0

/-! ## The two visitors -/

/-- The function `Log` passes to `r.Each` (log.go, lines 12 to 68): the
`Printf` calls made for one entry, and the entry afterwards; `none` when the
visit panics. -/
def LogVisit (name : String) (i : Instrument) : Option (List Call × Instrument) :=
  match i with
  | .counter metric =>
    some ([Printf "counter %s\n" [.str name],
           Printf "  count:       %9d\n" [.int metric.Count]], i)
  | .gauge metric =>
    some ([Printf "gauge %s\n" [.str name],
           Printf "  value:       %9d\n" [.int metric.Value]], i)
  | .gaugeFloat64 metric =>
    some ([Printf "gauge %s\n" [.str name],
           Printf "  value:       %f\n" [.float metric.Value]], i)
  | .healthcheck metric =>
    match metric.Check with
    | none => none
    | some metric =>
      some ([Printf "healthcheck %s\n" [.str name],
             Printf "  error:       %v\n" [.error metric.Error]], .healthcheck metric)
  | .histogram metric =>
    let h := metric.Snapshot
    let ps := h.Percentiles [float64 0.5, float64 0.75, float64 0.95, float64 0.99, float64 0.999]
    some ([Printf "histogram %s\n" [.str name],
           Printf "  count:       %9d\n" [.int h.Count],
           Printf "  min:         %9d\n" [.int h.Min],
           Printf "  max:         %9d\n" [.int h.Max],
           Printf "  mean:        %12.2f\n" [.float h.Mean],
           Printf "  stddev:      %12.2f\n" [.float h.StdDev],
           Printf "  median:      %12.2f\n" [.float (index ps 0)],
           Printf "  75%%:         %12.2f\n" [.float (index ps 1)],
           Printf "  95%%:         %12.2f\n" [.float (index ps 2)],
           Printf "  99%%:         %12.2f\n" [.float (index ps 3)],
           Printf "  99.9%%:       %12.2f\n" [.float (index ps 4)]], i)
  | .meter metric =>
    let m := metric.Snapshot
    some ([Printf "meter %s\n" [.str name],
           Printf "  count:       %9d\n" [.int m.Count],
           Printf "  1-min rate:  %12.2f\n" [.float m.Rate1],
           Printf "  5-min rate:  %12.2f\n" [.float m.Rate5],
           Printf "  15-min rate: %12.2f\n" [.float m.Rate15],
           Printf "  mean rate:   %12.2f\n" [.float m.RateMean]], i)
  | .timer metric =>
    let t := metric.Snapshot
    let ps := t.Percentiles [float64 0.5, float64 0.75, float64 0.95, float64 0.99, float64 0.999]
    some ([Printf "timer %s\n" [.str name],
           Printf "  count:       %9d\n" [.int t.Count],
           Printf "  min:         %9d\n" [.int t.Min],
           Printf "  max:         %9d\n" [.int t.Max],
           Printf "  mean:        %12.2f\n" [.float t.Mean],
           Printf "  stddev:      %12.2f\n" [.float t.StdDev],
           Printf "  median:      %12.2f\n" [.float (index ps 0)],
           Printf "  75%%:         %12.2f\n" [.float (index ps 1)],
           Printf "  95%%:         %12.2f\n" [.float (index ps 2)],
           Printf "  99%%:         %12.2f\n" [.float (index ps 3)],
           Printf "  99.9%%:       %12.2f\n" [.float (index ps 4)],
           Printf "  1-min rate:  %12.2f\n" [.float t.Rate1],
           Printf "  5-min rate:  %12.2f\n" [.float t.Rate5],
           Printf "  15-min rate: %12.2f\n" [.float t.Rate15],
           Printf "  mean rate:   %12.2f\n" [.float t.RateMean]], i)
  | .other _ => some ([], i)

/-- The function `LogCompact` passes to `r.Each` (log.go, lines 76 to 115). -/
def LogCompactVisit (name : String) (i : Instrument) : Option (List Call × Instrument) :=
  match i with
  | .counter metric =>
    some ([Printf "count %20s,count:%9d\n" [.str name, .int metric.Count]], i)
  | .gauge metric =>
    some ([Printf "gauge %20s,value:%9d\n" [.str name, .int metric.Value]], i)
  | .gaugeFloat64 metric =>
    some ([Printf "gauge %20s,value:%9f\n" [.str name, .float metric.Value]], i)
  | .healthcheck metric =>
    match metric.Check with
    | none => none
    | some metric =>
      some ([Printf "check %20s,error: %v\n" [.str name, .error metric.Error]],
            .healthcheck metric)
  | .histogram metric =>
    let h := metric.Snapshot
    let ps := h.Percentiles [float64 0.5, float64 0.75, float64 0.95, float64 0.99, float64 0.999]
    some ([Printf "hgram %20s,count:%9d,min:%4.2f,mean:%4.2f,95%%:%4.2f,99%%:%5.2f,max:%5.2f\n"
            [.str name, .int h.Count,
             .float (Seconds (Duration h.Min)),
             .float (Seconds (DurationOfFloat h.Mean)),
             .float (Seconds (DurationOfFloat (index ps 2))),
             .float (Seconds (DurationOfFloat (index ps 3))),
             .float (Seconds (Duration h.Max))]], i)
  | .meter metric =>
    let m := metric.Snapshot
    some ([Printf "meter %20s,count:%9d,1mrate:%12.2f,5mrate:%12.2f,meanrate:%12.2f/s\n"
            [.str name, .int m.Count, .float m.Rate1, .float m.Rate5, .float m.RateMean]], i)
  | .timer metric =>
    let t := metric.Snapshot
    let ps := t.Percentiles [float64 0.5, float64 0.75, float64 0.95, float64 0.99, float64 0.999]
    some ([Printf "timer %20s,count:%9d,meanrate:%4.2f/s,min:%4.2f,mean:%4.2f,95%%:%4.2f,99%%:%5.2f,max:%5.2f\n"
            [.str name, .int t.Count,
             .float t.RateMean,
             .float (Seconds (Duration t.Min)),
             .float (Seconds (DurationOfFloat t.Mean)),
             .float (Seconds (DurationOfFloat (index ps 2))),
             .float (Seconds (DurationOfFloat (index ps 3))),
             .float (Seconds (Duration t.Max))]], i)
  | .other _ => some ([], i)

/-! ## The registry and the loop -/

/-- The entries of a registry, in the order in which `Each` hands them to the
visitor. -/
abbrev Registry := List (String × Instrument)

/-- A visitor: the function handed to `Registry.Each`. -/
abbrev Visitor := String → Instrument → Option (List Call × Instrument)

/-- Modelled from the spec: the method `Registry.Each`, defined in
registry.go, which is not among the sources. It calls the visitor once per
registered entry. The result is what was written and the registry afterwards;
when a visit panics the iteration stops there and the registry is `none`. -/
def Each (f : Visitor) : Registry → List Call × Option Registry
  | [] => ([], some [])
  | (name, i) :: rest =>
    match f name i with
    | none => ([], none)
    | some (out, j) =>
      ((out ++ (Each f rest).1), (Each f rest).2.map (fun r => (name, j) :: r))

/-- The loop `for _ = range time.Tick(d)` over the first `k` ticks: one pass
per tick, each started when the previous one has returned. The result lists
what each started pass wrote, and the registry at the end; a pass that panics
ends the loop (`none`). -/
def ticks (pass : Registry → List Call × Option Registry) :
    Nat → Registry → List (List Call) × Option Registry
  | 0, r => ([], some r)
  | k + 1, r =>
    match pass r with
    | (out, none) => ([out], none)
    | (out, some r1) => (out :: (ticks pass k r1).1, (ticks pass k r1).2)

/-- The function `Log` (log.go, lines 10 to 70), run for `k` ticks of its
timer. -/
def Log (r : Registry) (k : Nat) : List (List Call) × Option Registry :=
  ticks (Each LogVisit) k r

/-- The function `LogCompact` (log.go, lines 74 to 117), run for `k` ticks of
its timer. -/
def LogCompact (r : Registry) (k : Nat) : List (List Call) × Option Registry :=
  ticks (Each LogCompactVisit) k r

/-- What a visitor writes for one entry (nothing when the visit panics). -/
def written (f : Visitor) (name : String) (i : Instrument) : List Call :=
  match f name i with
  | some (out, _) => out
  | none => []

/-- The entry a visit leaves behind (unchanged when the visit panics). -/
def after (f : Visitor) (name : String) (i : Instrument) : Instrument :=
  match f name i with
  | some (_, j) => j
  | none => i

/-- Whether visiting the instrument panics: a healthcheck whose probe
faults. -/
def Instrument.faults : Instrument → Bool
  | .healthcheck metric => metric.Check.isNone
  | _ => false

/-- The registry a pass leaves behind when no visit panics. -/
def visited (f : Visitor) (r : Registry) : Registry :=
  r.map (fun x => (x.1, after f x.1 x.2))

/-! ## Auxiliary facts: the float64 arithmetic and the durations -/

/-- The power of two as a power of the field. -/
theorem pow2_eq (e : Int) : pow2 e = (2 : ℚ) ^ e := by
  cases e with
  | ofNat n => simp [pow2]
  | negSucc n => simp [pow2, zpow_negSucc]

/-- A power of two is positive. -/
theorem pow2_pos (e : Int) : 0 < pow2 e := by
  rw [pow2_eq]; positivity

/-- With enough fuel the halvings find the leading bit. -/
theorem log2Aux_spec : ∀ (fuel n : Nat), n ≤ fuel → 0 < n →
    2 ^ log2Aux fuel n ≤ n ∧ n < 2 ^ (log2Aux fuel n + 1) := by
  intro fuel
  induction fuel with
  | zero => intro n h1 h2; omega
  | succ fuel ih =>
    intro n h1 h2
    unfold log2Aux
    split
    · rename_i h
      obtain ⟨ha, hb⟩ := ih (n / 2) (by omega) (by omega)
      generalize log2Aux fuel (n / 2) = k at ha hb ⊢
      rw [pow_succ] at hb ⊢
      constructor
      · omega
      · rw [pow_succ]; omega
    · have : n = 1 := by omega
      subst this
      simp

/-- The leading bit brackets a positive natural number between two powers of
two. -/
theorem log2_spec (n : Nat) (h : 0 < n) : 2 ^ log2 n ≤ n ∧ n < 2 ^ (log2 n + 1) :=
  log2Aux_spec n n (le_refl n) h

/-- The exponent of a positive rational brackets it between two powers of two. -/
theorem exponent_spec (x : ℚ) (hx : 0 < x) :
    pow2 (exponent x) ≤ x ∧ x < pow2 (exponent x + 1) := by
  have hnum : 0 < x.num := Rat.num_pos.mpr hx
  have hden : 0 < x.den := x.den_pos
  obtain ⟨a1, a2⟩ := log2_spec x.num.natAbs (Int.natAbs_pos.mpr (ne_of_gt hnum))
  obtain ⟨b1, b2⟩ := log2_spec x.den hden
  set a := log2 x.num.natAbs with ha
  set b := log2 x.den with hb
  have hnumq : (x.num : ℚ) = ((x.num.natAbs : ℕ) : ℚ) := by
    have h1 : ((x.num.natAbs : ℤ) : ℚ) = (x.num : ℚ) := by
      rw [Int.natAbs_of_nonneg (le_of_lt hnum)]
    rw [← h1, Int.cast_natCast]
  have hxq : x = ((x.num.natAbs : ℕ) : ℚ) / ((x.den : ℕ) : ℚ) := by
    rw [← hnumq]; exact (Rat.num_div_den x).symm
  have hdq : (0 : ℚ) < (x.den : ℚ) := by exact_mod_cast hden
  have A1 : (2 : ℚ) ^ a ≤ ((x.num.natAbs : ℕ) : ℚ) := by exact_mod_cast a1
  have A2 : ((x.num.natAbs : ℕ) : ℚ) < (2 : ℚ) ^ (a + 1) := by exact_mod_cast a2
  have B1 : (2 : ℚ) ^ b ≤ ((x.den : ℕ) : ℚ) := by exact_mod_cast b1
  have B2 : ((x.den : ℕ) : ℚ) < (2 : ℚ) ^ (b + 1) := by exact_mod_cast b2
  have hP : (2 : ℚ) ^ ((a : ℤ) - (b : ℤ)) = (2 : ℚ) ^ a / (2 : ℚ) ^ b := by
    rw [zpow_sub₀ (by norm_num), zpow_natCast, zpow_natCast]
  have hpa : (0 : ℚ) < (2 : ℚ) ^ a := by positivity
  have hpb : (0 : ℚ) < (2 : ℚ) ^ b := by positivity
  have lo : (2 : ℚ) ^ a / (2 : ℚ) ^ b / 2 < x := by
    rw [hxq, div_div, div_lt_div_iff₀ (by positivity) hdq]
    have : ((x.den : ℕ) : ℚ) < (2 : ℚ) ^ b * 2 := by rw [← pow_succ]; exact B2
    nlinarith
  have hi : x < 2 * ((2 : ℚ) ^ a / (2 : ℚ) ^ b) := by
    rw [hxq, ← mul_div_assoc, div_lt_div_iff₀ hdq hpb]
    have : ((x.num.natAbs : ℕ) : ℚ) < 2 * (2 : ℚ) ^ a := by
      rw [pow_succ] at A2; linarith
    nlinarith
  unfold exponent
  simp only [← ha, ← hb]
  have e1 : pow2 ((a : ℤ) - (b : ℤ) + 1) = 2 * ((2 : ℚ) ^ a / (2 : ℚ) ^ b) := by
    rw [pow2_eq, zpow_add₀ (by norm_num), hP]; ring
  have e2 : pow2 ((a : ℤ) - (b : ℤ) - 1) = (2 : ℚ) ^ a / (2 : ℚ) ^ b / 2 := by
    rw [pow2_eq, zpow_sub₀ (by norm_num), hP]; simp
  split
  · rename_i h
    exact ⟨h, by rw [e1]; exact hi⟩
  · rename_i h
    rw [not_le, pow2_eq, hP] at h
    refine ⟨by rw [e2]; exact le_of_lt lo, ?_⟩
    rw [sub_add_cancel, pow2_eq, hP]; exact h

/-- Rounding to an integer moves a number by at most one half. -/
theorem roundHalfEven_near (y : ℚ) : |((roundHalfEven y : Int) : ℚ) - y| ≤ 1 / 2 := by
  have h1 : ((⌊y⌋ : Int) : ℚ) ≤ y := Int.floor_le y
  have h2 : y < ((⌊y⌋ : Int) : ℚ) + 1 := Int.lt_floor_add_one y
  unfold roundHalfEven
  simp only
  rw [abs_le]
  split_ifs with c1 c2 c3 <;> push_cast <;> constructor <;> linarith

/-- Rounding a non-negative number to an integer gives a non-negative integer. -/
theorem roundHalfEven_nonneg (y : ℚ) (hy : 0 ≤ y) : 0 ≤ roundHalfEven y := by
  have h1 : 0 ≤ ⌊y⌋ := Int.floor_nonneg.mpr hy
  unfold roundHalfEven
  simp only
  split_ifs <;> omega

/-- A float64 has the sign of the number it rounds. -/
theorem round64_nonneg (x : ℚ) (hx : 0 ≤ x) : 0 ≤ round64 x := by
  unfold round64
  split
  · exact le_refl 0
  · simp only
    rw [if_neg (not_lt.mpr hx)]
    have hu := pow2_pos (max (exponent |x|) (-1022) - 52)
    have hr : (0 : ℚ) ≤ ((roundHalfEven (|x| / pow2 (max (exponent |x|) (-1022) - 52)) : Int) : ℚ) := by
      exact_mod_cast roundHalfEven_nonneg _ (div_nonneg (abs_nonneg x) (le_of_lt hu))
    positivity

/-- Rounding to float64 commutes with negation. -/
theorem round64_neg (x : ℚ) : round64 (-x) = -round64 x := by
  unfold round64
  by_cases h0 : x = 0
  · simp [h0]
  · have h0' : ¬ (-x = 0) := by simpa using h0
    rw [if_neg h0, if_neg h0']
    simp only [abs_neg]
    rcases lt_or_gt_of_ne h0 with h | h
    · have h1 : ¬ (-x < 0) := by linarith
      simp only [if_neg h1, if_pos h]; ring
    · have h1 : -x < 0 := by linarith
      have h2 : ¬ (x < 0) := by linarith
      simp only [if_pos h1, if_neg h2]; ring

/-- In the normal range a float64 is within the relative distance `2^-53` of
the number it rounds. -/
theorem round64_near (x : ℚ) (hx : x = 0 ∨ pow2 (-1022) ≤ |x|) :
    |round64 x - x| ≤ |x| / 2 ^ 53 := by
  by_cases h0 : x = 0
  · subst h0; simp [round64]
  · have hn : pow2 (-1022) ≤ |x| := hx.resolve_left h0
    have hpos : 0 < |x| := abs_pos.mpr h0
    have he : pow2 (max (exponent |x|) (-1022)) ≤ |x| := by
      rcases max_choice (exponent |x|) (-1022) with h | h
      · rw [h]; exact (exponent_spec |x| hpos).1
      · rw [h]; exact hn
    set e := max (exponent |x|) (-1022) with hedef
    have hulp : pow2 (e - 52) = pow2 e / 2 ^ 52 := by
      rw [pow2_eq, pow2_eq, zpow_sub₀ (by norm_num)]; norm_num
    have hu := pow2_pos (e - 52)
    have hr := roundHalfEven_near (|x| / pow2 (e - 52))
    set R : ℚ := ((roundHalfEven (|x| / pow2 (e - 52)) : Int) : ℚ) with hR
    have key : abs (R * pow2 (e - 52) - abs x) ≤ pow2 (e - 52) / 2 := by
      have : R * pow2 (e - 52) - abs x = (R - abs x / pow2 (e - 52)) * pow2 (e - 52) := by
        field_simp
      rw [this, abs_mul, abs_of_pos hu]
      calc abs (R - abs x / pow2 (e - 52)) * pow2 (e - 52) ≤ 1 / 2 * pow2 (e - 52) :=
            mul_le_mul_of_nonneg_right hr (le_of_lt hu)
        _ = pow2 (e - 52) / 2 := by ring
    have bound : pow2 (e - 52) / 2 ≤ |x| / 2 ^ 53 := by
      rw [hulp]
      have : pow2 e / 2 ^ 52 / 2 = pow2 e / 2 ^ 53 := by ring
      rw [this]
      exact div_le_div_of_nonneg_right he (by positivity)
    have hval : round64 x = (if x < 0 then -1 else 1) * R * pow2 (e - 52) := by
      unfold round64
      rw [if_neg h0]
    rw [hval]
    rcases lt_or_gt_of_ne h0 with h | h
    · rw [if_pos h]
      have hax : |x| = -x := abs_of_neg h
      have : -1 * R * pow2 (e - 52) - x = -(R * pow2 (e - 52) - |x|) := by rw [hax]; ring
      rw [this, abs_neg]
      exact le_trans key bound
    · rw [if_neg (by linarith)]
      have hax : |x| = x := abs_of_pos h
      have : 1 * R * pow2 (e - 52) - x = R * pow2 (e - 52) - |x| := by rw [hax]; ring
      rw [this]
      exact le_trans key bound

/-- A whole number is zero or in the normal range of float64. -/
theorem intCast_normal (z : Int) : (z : ℚ) = 0 ∨ pow2 (-1022) ≤ |(z : ℚ)| := by
  by_cases hz : z = 0
  · left; exact_mod_cast hz
  · right
    have h1 : (1 : ℚ) ≤ |(z : ℚ)| := by
      have : (1 : ℤ) ≤ |z| := Int.one_le_abs hz
      exact_mod_cast this
    have h2 : pow2 (-1022) ≤ 1 := by
      rw [pow2_eq]
      exact zpow_le_one_of_nonpos₀ (by norm_num) (by norm_num)
    linarith

/-- The seconds of a non-negative duration are within the relative distance
`2^-51` of the nanoseconds divided by `10^9`. -/
theorem Seconds_near_of_nonneg (d : Int) (hd : 0 ≤ d) :
    |Seconds d - (d : ℚ) / 1000000000| ≤ (d : ℚ) / 1000000000 / 2 ^ 51 := by
  have hs0 : 0 ≤ Int.tdiv d 1000000000 := Int.tdiv_nonneg hd (by norm_num)
  have hm0 : 0 ≤ Int.tmod d 1000000000 := Int.tmod_nonneg _ hd
  have hsplit : (d : ℚ) =
      1000000000 * ((Int.tdiv d 1000000000 : Int) : ℚ) + ((Int.tmod d 1000000000 : Int) : ℚ) := by
    exact_mod_cast (Int.tdiv_add_tmod d 1000000000).symm
  have hS : ((Int.tdiv d 1000000000 : Int) : ℚ) = 0 ∨ 1 ≤ ((Int.tdiv d 1000000000 : Int) : ℚ) := by
    rcases lt_or_ge 0 (Int.tdiv d 1000000000) with h | h
    · right; exact_mod_cast h
    · left; exact_mod_cast le_antisymm h hs0
  have hM : ((Int.tmod d 1000000000 : Int) : ℚ) = 0 ∨ 1 ≤ ((Int.tmod d 1000000000 : Int) : ℚ) := by
    rcases lt_or_ge 0 (Int.tmod d 1000000000) with h | h
    · right; exact_mod_cast h
    · left; exact_mod_cast le_antisymm h hm0
  have hS0 : (0 : ℚ) ≤ ((Int.tdiv d 1000000000 : Int) : ℚ) := by exact_mod_cast hs0
  have hM0 : (0 : ℚ) ≤ ((Int.tmod d 1000000000 : Int) : ℚ) := by exact_mod_cast hm0
  set S : ℚ := ((Int.tdiv d 1000000000 : Int) : ℚ) with hSdef
  set M : ℚ := ((Int.tmod d 1000000000 : Int) : ℚ) with hMdef
  have tiny : pow2 (-1022) ≤ 1 / 4000000000 := by
    rw [pow2_eq]; norm_num
  have ha := round64_near S (intCast_normal _)
  have ha0 := round64_nonneg S hS0
  have hb := round64_near M (intCast_normal _)
  have hb0 := round64_nonneg M hM0
  rw [abs_of_nonneg hS0, abs_le] at ha
  rw [abs_of_nonneg hM0, abs_le] at hb
  set a := round64 S with hadef
  set b := round64 M with hbdef
  have hbq0 : 0 ≤ b / 1000000000 := by positivity
  have hbn : b / 1000000000 = 0 ∨ pow2 (-1022) ≤ |b / 1000000000| := by
    rcases hM with h | h
    · left
      have : b = 0 := by rw [hbdef, h]; simp [round64]
      rw [this]; simp
    · right
      rw [abs_of_nonneg hbq0]
      have : (1 : ℚ) / 2 ≤ b := by
        have h53 : (0 : ℚ) < 2 ^ 53 := by positivity
        have : M / 2 ^ 53 ≤ M / 2 := by
          apply div_le_div_of_nonneg_left hM0 (by norm_num) (by norm_num)
        linarith [hb.1]
      have : (1 : ℚ) / 4000000000 ≤ b / 1000000000 := by
        rw [div_le_div_iff₀ (by norm_num) (by norm_num)]; linarith
      linarith
  have hq := round64_near (b / 1000000000) hbn
  have hq0 := round64_nonneg (b / 1000000000) hbq0
  rw [abs_of_nonneg hbq0, abs_le] at hq
  set q := round64 (b / 1000000000) with hqdef
  have haq0 : 0 ≤ a + q := by linarith
  have haqn : a + q = 0 ∨ pow2 (-1022) ≤ |a + q| := by
    rw [abs_of_nonneg haq0]
    rcases hS with h | h
    · rcases hM with h' | h'
      · left
        have e1 : a = 0 := by rw [hadef, h]; simp [round64]
        have e2 : b = 0 := by rw [hbdef, h']; simp [round64]
        have e3 : q = 0 := by rw [hqdef, e2]; simp [round64]
        rw [e1, e3]; simp
      · right
        have hb1 : (1 : ℚ) / 2 ≤ b := by
          have : M / 2 ^ 53 ≤ M / 2 := by
            apply div_le_div_of_nonneg_left hM0 (by norm_num) (by norm_num)
          linarith [hb.1]
        have hq1 : b / 1000000000 / 2 ≤ q := by
          have : b / 1000000000 / 2 ^ 53 ≤ b / 1000000000 / 2 := by
            apply div_le_div_of_nonneg_left hbq0 (by norm_num) (by norm_num)
          linarith [hq.1]
        have : (1 : ℚ) / 4000000000 ≤ b / 1000000000 / 2 := by
          rw [div_div, div_le_div_iff₀ (by norm_num) (by norm_num)]; linarith
        linarith
    · right
      have ha1 : (1 : ℚ) / 2 ≤ a := by
        have : S / 2 ^ 53 ≤ S / 2 := by
          apply div_le_div_of_nonneg_left hS0 (by norm_num) (by norm_num)
        linarith [ha.1]
      have : (1 : ℚ) / 4000000000 ≤ 1 / 2 := by norm_num
      linarith
  have hr := round64_near (a + q) haqn
  rw [abs_of_nonneg haq0, abs_le] at hr
  have hval : Seconds d = round64 (a + q) := rfl
  rw [hval, hsplit, abs_le]
  have e53 : (2 : ℚ) ^ 53 = 9007199254740992 := by norm_num
  have e51 : (2 : ℚ) ^ 51 = 2251799813685248 := by norm_num
  rw [e53] at ha hb hq hr
  rw [e51]
  constructor <;> linarith [ha.1, ha.2, hb.1, hb.2, hq.1, hq.2, hr.1, hr.2]

/-- The seconds of a duration commute with negation. -/
theorem Seconds_neg (d : Int) : Seconds (-d) = -Seconds d := by
  have h1 : Int.tdiv (-d) Second = -Int.tdiv d Second := Int.neg_tdiv d Second
  have h2 : Int.tmod (-d) Second = -Int.tmod d Second := by
    rw [Int.tmod_def, Int.tmod_def, h1]; ring
  unfold Seconds fadd fdiv float64OfInt
  simp only [h1, h2, Int.cast_neg, round64_neg, neg_div, ← neg_add]

/-- The seconds of a duration are within the relative distance `2^-51` of the
nanoseconds divided by `10^9`. -/
theorem Seconds_near (d : Int) :
    |Seconds d - (d : ℚ) / 1000000000| ≤ |(d : ℚ)| / 1000000000 / 2 ^ 51 := by
  rcases le_total 0 d with h | h
  · have hq : (0 : ℚ) ≤ (d : ℚ) := by exact_mod_cast h
    rw [abs_of_nonneg hq]
    exact Seconds_near_of_nonneg d h
  · have hq : (d : ℚ) ≤ 0 := by exact_mod_cast h
    have h' : 0 ≤ -d := by omega
    have key := Seconds_near_of_nonneg (-d) h'
    rw [Seconds_neg] at key
    rw [abs_of_nonpos hq]
    have e : -Seconds d - ((-d : Int) : ℚ) / 1000000000 = -(Seconds d - (d : ℚ) / 1000000000) := by
      push_cast; ring
    rw [e, abs_neg] at key
    have e2 : ((-d : Int) : ℚ) = -(d : ℚ) := by push_cast; ring
    rw [e2] at key
    exact key

/-- The conversion of a float to an integer discards the fraction. -/
theorem tdiv_num_den (x : ℚ) : Int.tdiv x.num x.den = towardZero x := by
  unfold towardZero
  split
  · rename_i h
    have hn : 0 ≤ x.num := Rat.num_nonneg.mpr h
    rw [Int.tdiv_eq_ediv hn (by positivity), ← Rat.floor_def']
    rfl
  · rename_i h
    have hx : x < 0 := not_le.mp h
    have hn : x.num < 0 := Rat.num_neg.mpr hx
    have h1 : Int.tdiv x.num x.den = -Int.tdiv (-x.num) x.den := by
      rw [Int.neg_tdiv]; ring
    have h2 : ⌈x⌉ = -⌊-x⌋ := by rw [Int.floor_neg]; ring
    rw [h1, h2, Int.tdiv_eq_ediv (by omega) (by positivity)]
    have : ⌊-x⌋ = (-x).num / ((-x).den : ℤ) := by
      rw [← Rat.floor_def']; rfl
    rw [this, Rat.neg_num, Rat.neg_den]

/-- A float inside the range of int64 converts to itself without its
fraction. -/
theorem DurationOfFloat_of_inInt64 (x : ℚ) (hx : inInt64 x) :
    DurationOfFloat x = towardZero x := by
  obtain ⟨h1, h2⟩ := hx
  unfold DurationOfFloat
  simp only [tdiv_num_den]
  have lo : -9223372036854775808 ≤ towardZero x := by
    unfold towardZero
    split
    · rename_i h
      have : 0 ≤ ⌊x⌋ := Int.floor_nonneg.mpr h
      omega
    · have : -9223372036854775809 < ⌈x⌉ := by
        rw [Int.lt_ceil]; push_cast; exact h1
      omega
  have hi : towardZero x ≤ 9223372036854775807 := by
    unfold towardZero
    split
    · have : ⌊x⌋ < 9223372036854775808 := by
        rw [Int.floor_lt]; push_cast; exact h2
      omega
    · rename_i h
      have hx0 : x ≤ 0 := le_of_lt (not_le.mp h)
      have : ⌈x⌉ ≤ 0 := by
        rw [Int.ceil_le]; simpa using hx0
      omega
  rw [if_pos ⟨lo, hi⟩]

/-! ## Auxiliary facts: the format strings of log.go -/

theorem pieces_counter :
    pieces "counter %s\n" = [.lit "counter ".data, .verb none none 's', .lit ['\n']] := by
  decide

theorem pieces_healthcheck :
    pieces "healthcheck %s\n" = [.lit "healthcheck ".data, .verb none none 's', .lit ['\n']] := by
  decide

theorem pieces_histogram :
    pieces "histogram %s\n" = [.lit "histogram ".data, .verb none none 's', .lit ['\n']] := by
  decide

theorem pieces_meter :
    pieces "meter %s\n" = [.lit "meter ".data, .verb none none 's', .lit ['\n']] := by
  decide

theorem pieces_timer :
    pieces "timer %s\n" = [.lit "timer ".data, .verb none none 's', .lit ['\n']] := by
  decide

theorem pieces_count :
    pieces "  count:       %9d\n" =
      [.lit "  count:       ".data, .verb (some 9) none 'd', .lit ['\n']] := by
  decide

theorem pieces_error :
    pieces "  error:       %v\n" =
      [.lit "  error:       ".data, .verb none none 'v', .lit ['\n']] := by
  decide

theorem pieces_min :
    pieces "  min:         %9d\n" =
      [.lit "  min:         ".data, .verb (some 9) none 'd', .lit ['\n']] := by
  decide

theorem pieces_max :
    pieces "  max:         %9d\n" =
      [.lit "  max:         ".data, .verb (some 9) none 'd', .lit ['\n']] := by
  decide

theorem pieces_mean :
    pieces "  mean:        %12.2f\n" =
      [.lit "  mean:        ".data, .verb (some 12) (some 2) 'f', .lit ['\n']] := by
  decide

theorem pieces_stddev :
    pieces "  stddev:      %12.2f\n" =
      [.lit "  stddev:      ".data, .verb (some 12) (some 2) 'f', .lit ['\n']] := by
  decide

theorem pieces_median :
    pieces "  median:      %12.2f\n" =
      [.lit "  median:      ".data, .verb (some 12) (some 2) 'f', .lit ['\n']] := by
  decide

theorem pieces_p75 :
    pieces "  75%%:         %12.2f\n" =
      [.lit "  75%:         ".data, .verb (some 12) (some 2) 'f', .lit ['\n']] := by
  decide

theorem pieces_p95 :
    pieces "  95%%:         %12.2f\n" =
      [.lit "  95%:         ".data, .verb (some 12) (some 2) 'f', .lit ['\n']] := by
  decide

theorem pieces_p99 :
    pieces "  99%%:         %12.2f\n" =
      [.lit "  99%:         ".data, .verb (some 12) (some 2) 'f', .lit ['\n']] := by
  decide

theorem pieces_p999 :
    pieces "  99.9%%:       %12.2f\n" =
      [.lit "  99.9%:       ".data, .verb (some 12) (some 2) 'f', .lit ['\n']] := by
  decide

theorem pieces_rate1 :
    pieces "  1-min rate:  %12.2f\n" =
      [.lit "  1-min rate:  ".data, .verb (some 12) (some 2) 'f', .lit ['\n']] := by
  decide

theorem pieces_rate5 :
    pieces "  5-min rate:  %12.2f\n" =
      [.lit "  5-min rate:  ".data, .verb (some 12) (some 2) 'f', .lit ['\n']] := by
  decide

theorem pieces_rate15 :
    pieces "  15-min rate: %12.2f\n" =
      [.lit "  15-min rate: ".data, .verb (some 12) (some 2) 'f', .lit ['\n']] := by
  decide

theorem pieces_rateMean :
    pieces "  mean rate:   %12.2f\n" =
      [.lit "  mean rate:   ".data, .verb (some 12) (some 2) 'f', .lit ['\n']] := by
  decide

theorem pieces_compact_check :
    pieces "check %20s,error: %v\n" =
      [.lit "check ".data, .verb (some 20) none 's', .lit ",error: ".data,
       .verb none none 'v', .lit ['\n']] := by
  decide

theorem pieces_compact_hgram :
    pieces "hgram %20s,count:%9d,min:%4.2f,mean:%4.2f,95%%:%4.2f,99%%:%5.2f,max:%5.2f\n" =
      [.lit "hgram ".data, .verb (some 20) none 's',
       .lit ",count:".data, .verb (some 9) none 'd',
       .lit ",min:".data, .verb (some 4) (some 2) 'f',
       .lit ",mean:".data, .verb (some 4) (some 2) 'f',
       .lit ",95%:".data, .verb (some 4) (some 2) 'f',
       .lit ",99%:".data, .verb (some 5) (some 2) 'f',
       .lit ",max:".data, .verb (some 5) (some 2) 'f', .lit ['\n']] := by
  decide

theorem pieces_compact_meter :
    pieces "meter %20s,count:%9d,1mrate:%12.2f,5mrate:%12.2f,meanrate:%12.2f/s\n" =
      [.lit "meter ".data, .verb (some 20) none 's',
       .lit ",count:".data, .verb (some 9) none 'd',
       .lit ",1mrate:".data, .verb (some 12) (some 2) 'f',
       .lit ",5mrate:".data, .verb (some 12) (some 2) 'f',
       .lit ",meanrate:".data, .verb (some 12) (some 2) 'f', .lit "/s\n".data] := by
  decide

theorem pieces_compact_timer :
    pieces "timer %20s,count:%9d,meanrate:%4.2f/s,min:%4.2f,mean:%4.2f,95%%:%4.2f,99%%:%5.2f,max:%5.2f\n" =
      [.lit "timer ".data, .verb (some 20) none 's',
       .lit ",count:".data, .verb (some 9) none 'd',
       .lit ",meanrate:".data, .verb (some 4) (some 2) 'f',
       .lit "/s,min:".data, .verb (some 4) (some 2) 'f',
       .lit ",mean:".data, .verb (some 4) (some 2) 'f',
       .lit ",95%:".data, .verb (some 4) (some 2) 'f',
       .lit ",99%:".data, .verb (some 5) (some 2) 'f',
       .lit ",max:".data, .verb (some 5) (some 2) 'f', .lit ['\n']] := by
  decide

/-! ## Auxiliary facts: the labelled values of each block -/

/-- A list of five values is the list of its elements at the indices 0 to 4. -/
theorem eq_of_length_five (ps : List ℚ) (h : ps.length = 5) :
    ps = [index ps 0, index ps 1, index ps 2, index ps 3, index ps 4] := by
  match ps, h with
  | [_, _, _, _, _], _ => rfl

/-- The request of five quantiles is answered by five values. -/
theorem Percentiles_five (h : HistogramSnapshot) :
    (h.Percentiles 
      [float64 0.5, float64 0.75, float64 0.95, float64 0.99, float64 0.999]).length = 5 :=
  h.Percentiles_length _

/-- The request of five quantiles is answered by five values. -/
theorem Timer_Percentiles_five (t : TimerSnapshot) :
    (t.Percentiles 
      [float64 0.5, float64 0.75, float64 0.95, float64 0.99, float64 0.999]).length = 5 :=
  t.Percentiles_length _

theorem fields_verbose_histogram (n : String) (h : HistogramSnapshot) (ps : List ℚ)
    (hps : h.Percentiles 
      [float64 0.5, float64 0.75, float64 0.95, float64 0.99, float64 0.999] = ps) :
    fieldsOf (written LogVisit n (.histogram ⟨h⟩)) =
      [("histogram", .str n), ("count", .int h.Count), ("min", .int h.Min),
       ("max", .int h.Max), ("mean", .float h.Mean), ("stddev", .float h.StdDev),
       ("median", .float (index ps 0)), ("75%", .float (index ps 1)),
       ("95%", .float (index ps 2)), ("99%", .float (index ps 3)),
       ("99.9%", .float (index ps 4))] := by
  simp only [written, LogVisit, fieldsOf, List.flatMap, List.map, List.flatten, Call.fields,
    Printf, pieces_histogram, pieces_count, pieces_min, pieces_max, pieces_mean, pieces_stddev,
    pieces_median, pieces_p75, pieces_p95, pieces_p99, pieces_p999, fieldsAux, hps]
  simp [label]

theorem fields_verbose_timer (n : String) (t : TimerSnapshot) (ps : List ℚ)
    (hps : t.Percentiles 
      [float64 0.5, float64 0.75, float64 0.95, float64 0.99, float64 0.999] = ps) :
    fieldsOf (written LogVisit n (.timer ⟨t⟩)) =
      [("timer", .str n), ("count", .int t.Count), ("min", .int t.Min),
       ("max", .int t.Max), ("mean", .float t.Mean), ("stddev", .float t.StdDev),
       ("median", .float (index ps 0)), ("75%", .float (index ps 1)),
       ("95%", .float (index ps 2)), ("99%", .float (index ps 3)),
       ("99.9%", .float (index ps 4)),
       ("1-min rate", .float t.Rate1), ("5-min rate", .float t.Rate5),
       ("15-min rate", .float t.Rate15), ("mean rate", .float t.RateMean)] := by
  simp only [written, LogVisit, fieldsOf, List.flatMap, List.map, List.flatten, Call.fields,
    Printf, pieces_timer, pieces_count, pieces_min, pieces_max, pieces_mean, pieces_stddev,
    pieces_median, pieces_p75, pieces_p95, pieces_p99, pieces_p999, pieces_rate1, pieces_rate5,
    pieces_rate15, pieces_rateMean, fieldsAux, hps]
  simp [label]

theorem fields_verbose_meter (n : String) (m : MeterSnapshot) :
    fieldsOf (written LogVisit n (.meter ⟨m⟩)) =
      [("meter", .str n), ("count", .int m.Count),
       ("1-min rate", .float m.Rate1), ("5-min rate", .float m.Rate5),
       ("15-min rate", .float m.Rate15), ("mean rate", .float m.RateMean)] := by
  simp only [written, LogVisit, fieldsOf, List.flatMap, List.map, List.flatten, Call.fields,
    Printf, pieces_meter, pieces_count, pieces_rate1, pieces_rate5,
    pieces_rate15, pieces_rateMean, fieldsAux]
  simp [label]

theorem fields_compact_histogram (n : String) (h : HistogramSnapshot) (ps : List ℚ)
    (hps : h.Percentiles 
      [float64 0.5, float64 0.75, float64 0.95, float64 0.99, float64 0.999] = ps) :
    fieldsOf (written LogCompactVisit n (.histogram ⟨h⟩)) =
      [("hgram", .str n), ("count", .int h.Count),
       ("min", .float (Seconds (Duration h.Min))),
       ("mean", .float (Seconds (DurationOfFloat h.Mean))),
       ("95%", .float (Seconds (DurationOfFloat (index ps 2)))),
       ("99%", .float (Seconds (DurationOfFloat (index ps 3)))),
       ("max", .float (Seconds (Duration h.Max)))] := by
  simp only [written, LogCompactVisit, fieldsOf, List.flatMap, List.map, List.flatten,
    Call.fields, Printf, pieces_compact_hgram, fieldsAux, hps]
  simp [label]

theorem fields_compact_timer (n : String) (t : TimerSnapshot) (ps : List ℚ)
    (hps : t.Percentiles 
      [float64 0.5, float64 0.75, float64 0.95, float64 0.99, float64 0.999] = ps) :
    fieldsOf (written LogCompactVisit n (.timer ⟨t⟩)) =
      [("timer", .str n), ("count", .int t.Count), ("meanrate", .float t.RateMean),
       ("min", .float (Seconds (Duration t.Min))),
       ("mean", .float (Seconds (DurationOfFloat t.Mean))),
       ("95%", .float (Seconds (DurationOfFloat (index ps 2)))),
       ("99%", .float (Seconds (DurationOfFloat (index ps 3)))),
       ("max", .float (Seconds (Duration t.Max)))] := by
  simp only [written, LogCompactVisit, fieldsOf, List.flatMap, List.map, List.flatten,
    Call.fields, Printf, pieces_compact_timer, fieldsAux, hps]
  simp [label]

theorem fields_compact_meter (n : String) (m : MeterSnapshot) :
    fieldsOf (written LogCompactVisit n (.meter ⟨m⟩)) =
      [("meter", .str n), ("count", .int m.Count), ("1mrate", .float m.Rate1),
       ("5mrate", .float m.Rate5), ("meanrate", .float m.RateMean)] := by
  simp only [written, LogCompactVisit, fieldsOf, List.flatMap, List.map, List.flatten,
    Call.fields, Printf, pieces_compact_meter, fieldsAux]
  simp [label]

/-- The histogram of the values 10, 20, 30, 40, 50 in the compact style: the
count is 5 and every time field is a number of seconds that prints as 0.00. -/
theorem compact_histogram_of_five_values :
    (written LogCompactVisit "latency" (.histogram
        ⟨HistogramSnapshot.ofQuantile 5 10 50 30 14 (fun q =>
          if q = float64 0.5 then 30 else if q = float64 0.75 then 45 else 50)⟩)).map
            Call.text =
      ["hgram              latency,count:        5,min:0.00,mean:0.00,95%:0.00,99%: 0.00,max: 0.00\n"] := by
  decide!

/-- The compact time fields at 5 and at 15 milliseconds: the seconds are the
`float64` next to 0.005 and to 0.015, which print as 0.01 and 0.01. -/
theorem compact_histogram_at_ties :
    (written LogCompactVisit "latency" (.histogram
        ⟨HistogramSnapshot.ofQuantile 2 5000000 15000000 10000000 5000000
          (fun _ => 15000000)⟩)).map Call.text =
      ["hgram              latency,count:        2,min:0.01,mean:0.01,95%:0.01,99%: 0.01,max: 0.01\n"] := by
  decide!

/-- A mean of 2^63, as one sample of the largest int64 gives, is outside the
range of the conversion to a duration, which then yields the smallest int64:
the compact line shows it as a negative number of seconds. -/
theorem compact_histogram_of_largest_sample :
    DurationOfFloat 9223372036854775808 = -9223372036854775808 ∧
      (written LogCompactVisit "latency" (.histogram
        ⟨HistogramSnapshot.ofQuantile 1 9223372036854775807 9223372036854775807
          9223372036854775808 0 (fun _ => 9223372036854775808)⟩)).map Call.text =
      ["hgram              latency,count:        1,min:9223372036.85,mean:-9223372036.85,95%:-9223372036.85,99%:-9223372036.85,max:9223372036.85\n"] := by
  decide!

/-! ## Auxiliary facts: the registry iteration and the loop -/

/-- A visit panics exactly on a healthcheck whose probe faults. -/
theorem LogVisit_isSome (n : String) (i : Instrument) :
    (LogVisit n i).isSome = !i.faults := by
  cases i with
  | healthcheck metric =>
    obtain ⟨e, p⟩ := metric
    cases p <;> rfl
  | _ => rfl

/-- A compact visit panics exactly on a healthcheck whose probe faults. -/
theorem LogCompactVisit_isSome (n : String) (i : Instrument) :
    (LogCompactVisit n i).isSome = !i.faults := by
  cases i with
  | healthcheck metric =>
    obtain ⟨e, p⟩ := metric
    cases p <;> rfl
  | _ => rfl

/-- A visit does not change whether the instrument faults. -/
theorem faults_after_LogVisit (n : String) (i : Instrument) :
    (after LogVisit n i).faults = i.faults := by
  cases i with
  | healthcheck metric =>
    obtain ⟨e, p⟩ := metric
    cases p <;> rfl
  | _ => rfl

/-- A compact visit does not change whether the instrument faults. -/
theorem faults_after_LogCompactVisit (n : String) (i : Instrument) :
    (after LogCompactVisit n i).faults = i.faults := by
  cases i with
  | healthcheck metric =>
    obtain ⟨e, p⟩ := metric
    cases p <;> rfl
  | _ => rfl

/-- A pass over entries none of which panics writes the concatenation of what
each visit writes and returns. -/
theorem Each_of_isSome (f : Visitor) (r : Registry)
    (h : ∀ x ∈ r, (f x.1 x.2).isSome = true) :
    Each f r = (r.flatMap (fun x => written f x.1 x.2), some (visited f r)) := by
  induction r with
  | nil => rfl
  | cons x rest ih =>
    obtain ⟨n, i⟩ := x
    have hx := h (n, i) (List.mem_cons_self _ _)
    have ih1 := ih (fun y hy => h y (List.mem_cons_of_mem _ hy))
    obtain ⟨⟨out, j⟩, hf⟩ := Option.isSome_iff_exists.mp hx
    simp only at hf
    simp [Each, hf, ih1, written, after, visited]

/-- A pass stops at the first visit that panics: what the earlier visits
wrote stays written. -/
theorem Each_of_panic (f : Visitor) (xs ys : Registry) (n : String) (i : Instrument)
    (h : ∀ x ∈ xs, (f x.1 x.2).isSome = true) (hi : f n i = none) :
    Each f (xs ++ (n, i) :: ys) = (xs.flatMap (fun x => written f x.1 x.2), none) := by
  induction xs with
  | nil => simp [Each, hi]
  | cons x rest ih =>
    obtain ⟨m, j⟩ := x
    have hx := h (m, j) (List.mem_cons_self _ _)
    have ih1 := ih (fun y hy => h y (List.mem_cons_of_mem _ hy))
    obtain ⟨⟨out, j1⟩, hf⟩ := Option.isSome_iff_exists.mp hx
    simp only at hf
    simp [Each, hf, ih1, written]

/-- An entry for which the visitor writes nothing and does not panic can be
removed from a pass without changing what the pass writes, nor whether it
panics. -/
theorem Each_skip (f : Visitor) (xs ys : Registry) (n : String) (i : Instrument)
    (hi : f n i = some ([], i)) :
    (Each f (xs ++ (n, i) :: ys)).1 = (Each f (xs ++ ys)).1 ∧
      (Each f (xs ++ (n, i) :: ys)).2.isSome = (Each f (xs ++ ys)).2.isSome := by
  induction xs with
  | nil => simp [Each, hi]
  | cons x rest ih =>
    obtain ⟨m, j⟩ := x
    cases hf : f m j with
    | none => simp [Each, hf]
    | some p => simp [Each, hf, ih.1, ih.2]

/-- The loop, when every pass returns: one pass per tick, each on the registry
the previous pass left behind. -/
theorem ticks_of_returns (pass : Registry → List Call × Option Registry)
    (out : Registry → List Call) (next : Registry → Registry) (P : Registry → Prop)
    (hP : ∀ r, P r → pass r = (out r, some (next r)) ∧ P (next r)) :
    ∀ (k : Nat) (r : Registry), P r →
      ticks pass k r = ((List.range k).map (fun j => out (next^[j] r)), some (next^[k] r)) := by
  intro k
  induction k with
  | zero => intro r _; rfl
  | succ k ih =>
    intro r hr
    obtain ⟨h1, h2⟩ := hP r hr
    have ih1 := ih (next r) h2
    simp only [ticks, h1, ih1, List.range_succ_eq_map, List.map_cons, List.map_map,
      Function.iterate_succ_apply, Function.iterate_zero, id_eq]
    rfl

/-- Visiting keeps a registry free of faulting probes. -/
theorem visited_all_not_faults (f : Visitor) (hf : ∀ n i, (after f n i).faults = i.faults)
    (r : Registry) (h : r.all (fun x => !x.2.faults) = true) :
    (visited f r).all (fun x => !x.2.faults) = true := by
  simp only [visited, List.all_eq_true, List.mem_map, forall_exists_index, and_imp] at h ⊢
  intro y x hx hy
  subst hy
  simpa [hf] using h x hx

/-! ## Durations in the compact style -/

/-- C1, refuted as stated: for the histogram of the two values 1 and 2 the
verbose block shows the mean 3/2, and the compact line shows under `mean` the
seconds of one nanosecond (the `float64` nearest to 10^-9), which is not 3/2
divided by 10^9: the conversion to a duration drops the half nanosecond. -/
theorem compact_mean_truncates :
    shown (written LogVisit "latency" (.histogram
        ⟨HistogramSnapshot.ofQuantile 2 1 2 (3 / 2) (1 / 2)
          (fun q => if q = float64 0.5 then 3 / 2 else 2)⟩)) "mean" =
        some (.float (3 / 2)) ∧
      shown (written LogCompactVisit "latency" (.histogram
        ⟨HistogramSnapshot.ofQuantile 2 1 2 (3 / 2) (1 / 2)
          (fun q => if q = float64 0.5 then 3 / 2 else 2)⟩)) "mean" =
        some (.float (4835703278458517 / 4835703278458516698824704)) ∧
      (4835703278458517 / 4835703278458516698824704 : ℚ) ≠ (3 / 2) / 1000000000 := by
  have hs : Seconds (DurationOfFloat (3 / 2)) =
      4835703278458517 / 4835703278458516698824704 := by decide!
  refine ⟨?_, ?_, by norm_num⟩
  · rw [shown, fields_verbose_histogram _ _ _ rfl]
    simp [List.lookup, HistogramSnapshot.ofQuantile]
  · rw [shown, fields_compact_histogram _ _ _ rfl]
    simp only [HistogramSnapshot.ofQuantile, hs]
    simp [List.lookup]

/-- C1, amended: for every histogram and timer snapshot whose mean and 95th
and 99th percentiles lie inside the range of int64, the count is shown
unconverted in both styles, and each time field of the compact line is the
`float64` number of seconds of a whole number of nanoseconds: for `min` and
`max` the verbose value itself, for `mean`, `95%` and `99%` the verbose value
without its fraction. That number of seconds is within the relative distance
2^-51 of the nanoseconds divided by 10^9. -/
theorem compact_duration_fields (n : String) (h : HistogramSnapshot) (t : TimerSnapshot)
    (ps pt : List ℚ)
    (hps : h.Percentiles 
      [float64 0.5, float64 0.75, float64 0.95, float64 0.99, float64 0.999] = ps)
    (hpt : t.Percentiles 
      [float64 0.5, float64 0.75, float64 0.95, float64 0.99, float64 0.999] = pt)
    (hh : inInt64 h.Mean ∧ inInt64 (index ps 2) ∧ inInt64 (index ps 3))
    (ht : inInt64 t.Mean ∧ inInt64 (index pt 2) ∧ inInt64 (index pt 3)) :
    ([ "count", "min", "max", "mean", "95%", "99%" ].map
          (shown (written LogVisit n (.histogram ⟨h⟩))) =
        [some (.int h.Count), some (.int h.Min), some (.int h.Max), some (.float h.Mean),
         some (.float (index ps 2)), some (.float (index ps 3))] ∧
      [ "count", "min", "max", "mean", "95%", "99%" ].map
          (shown (written LogCompactVisit n (.histogram ⟨h⟩))) =
        [some (.int h.Count),
         some (.float (Seconds h.Min)),
         some (.float (Seconds h.Max)),
         some (.float (Seconds (towardZero h.Mean))),
         some (.float (Seconds (towardZero (index ps 2)))),
         some (.float (Seconds (towardZero (index ps 3))))]) ∧
    ([ "count", "min", "max", "mean", "95%", "99%" ].map
          (shown (written LogVisit n (.timer ⟨t⟩))) =
        [some (.int t.Count), some (.int t.Min), some (.int t.Max), some (.float t.Mean),
         some (.float (index pt 2)), some (.float (index pt 3))] ∧
      [ "count", "min", "max", "mean", "95%", "99%" ].map
          (shown (written LogCompactVisit n (.timer ⟨t⟩))) =
        [some (.int t.Count),
         some (.float (Seconds t.Min)),
         some (.float (Seconds t.Max)),
         some (.float (Seconds (towardZero t.Mean))),
         some (.float (Seconds (towardZero (index pt 2)))),
         some (.float (Seconds (towardZero (index pt 3))))]) ∧
    (∀ d : Int, |Seconds d - (d : ℚ) / 1000000000| ≤ |(d : ℚ)| / 1000000000 / 2 ^ 51) := by
  refine ⟨⟨?_, ?_⟩, ⟨?_, ?_⟩, Seconds_near⟩
  · simp only [List.map, shown, fields_verbose_histogram n h ps hps]
    simp [List.lookup]
  · simp only [List.map, shown, fields_compact_histogram n h ps hps, Duration,
      DurationOfFloat_of_inInt64 _ hh.1, DurationOfFloat_of_inInt64 _ hh.2.1,
      DurationOfFloat_of_inInt64 _ hh.2.2]
    simp [List.lookup]
  · simp only [List.map, shown, fields_verbose_timer n t pt hpt]
    simp [List.lookup]
  · simp only [List.map, shown, fields_compact_timer n t pt hpt, Duration,
      DurationOfFloat_of_inInt64 _ ht.1, DurationOfFloat_of_inInt64 _ ht.2.1,
      DurationOfFloat_of_inInt64 _ ht.2.2]
    simp [List.lookup]

/-- The amended C1 at the histogram of the values 1 and 2 and at a timer of
the durations 1 and 4 nanoseconds, and the distance at 5000000 nanoseconds. -/
theorem compact_duration_fields_witness :
    ([ "count", "min", "max", "mean", "95%", "99%" ].map
          (shown (written LogVisit "latency" (.histogram
            ⟨HistogramSnapshot.ofQuantile 2 1 2 (3 / 2) (1 / 2) (fun _ => 2)⟩))) =
        [some (.int 2), some (.int 1), some (.int 2), some (.float (3 / 2)),
         some (.float (index [2, 2, 2, 2, 2] 2)), some (.float (index [2, 2, 2, 2, 2] 3))] ∧
      [ "count", "min", "max", "mean", "95%", "99%" ].map
          (shown (written LogCompactVisit "latency" (.histogram
            ⟨HistogramSnapshot.ofQuantile 2 1 2 (3 / 2) (1 / 2) (fun _ => 2)⟩))) =
        [some (.int 2),
         some (.float (Seconds 1)),
         some (.float (Seconds 2)),
         some (.float (Seconds (towardZero (3 / 2)))),
         some (.float (Seconds (towardZero (index [2, 2, 2, 2, 2] 2)))),
         some (.float (Seconds (towardZero (index [2, 2, 2, 2, 2] 3))))]) ∧
    ([ "count", "min", "max", "mean", "95%", "99%" ].map
          (shown (written LogVisit "latency" (.timer
            ⟨TimerSnapshot.ofQuantile 2 1 4 (5 / 2) (3 / 2) (fun _ => 4) 1 1 1 1⟩))) =
        [some (.int 2), some (.int 1), some (.int 4), some (.float (5 / 2)),
         some (.float (index [4, 4, 4, 4, 4] 2)), some (.float (index [4, 4, 4, 4, 4] 3))] ∧
      [ "count", "min", "max", "mean", "95%", "99%" ].map
          (shown (written LogCompactVisit "latency" (.timer
            ⟨TimerSnapshot.ofQuantile 2 1 4 (5 / 2) (3 / 2) (fun _ => 4) 1 1 1 1⟩))) =
        [some (.int 2),
         some (.float (Seconds 1)),
         some (.float (Seconds 4)),
         some (.float (Seconds (towardZero (5 / 2)))),
         some (.float (Seconds (towardZero (index [4, 4, 4, 4, 4] 2)))),
         some (.float (Seconds (towardZero (index [4, 4, 4, 4, 4] 3))))]) ∧
    |Seconds 5000000 - ((5000000 : Int) : ℚ) / 1000000000| ≤
      |((5000000 : Int) : ℚ)| / 1000000000 / 2 ^ 51 := by
  obtain ⟨a, b, c⟩ := compact_duration_fields "latency"
    (HistogramSnapshot.ofQuantile 2 1 2 (3 / 2) (1 / 2) (fun _ => 2))
    (TimerSnapshot.ofQuantile 2 1 4 (5 / 2) (3 / 2) (fun _ => 4) 1 1 1 1)
    [2, 2, 2, 2, 2] [4, 4, 4, 4, 4] rfl rfl
    (by simp only [inInt64, index, HistogramSnapshot.ofQuantile]; norm_num)
    (by simp only [inInt64, index, TimerSnapshot.ofQuantile]; norm_num)
  exact ⟨a, b, c 5000000⟩

/-- C8, the code at a histogram that saw the single duration of 1.5 seconds
(1500000000 nanoseconds): the compact line shows 1.50 in every time field, the
value in seconds; in milliseconds, as the comment on `LogCompact` announces,
it would be 1500. -/
theorem LogCompact_times_in_seconds :
    (written LogCompactVisit "latency" (.histogram
        ⟨HistogramSnapshot.ofQuantile 1 1500000000 1500000000 1500000000 0
          (fun _ => 1500000000)⟩)).map Call.text =
        ["hgram              latency,count:        1,min:1.50,mean:1.50,95%:1.50,99%: 1.50,max: 1.50\n"] ∧
      shown (written LogCompactVisit "latency" (.histogram
        ⟨HistogramSnapshot.ofQuantile 1 1500000000 1500000000 1500000000 0
          (fun _ => 1500000000)⟩)) "min" =
        some (.float (3 / 2)) ∧
      (3 / 2 : ℚ) ≠ 1500000000 / 1000000 := by
  have hs : Seconds (Duration 1500000000) = 3 / 2 := by decide!
  refine ⟨by decide!, ?_, by norm_num⟩
  rw [shown, fields_compact_histogram _ _ _ rfl]
  simp only [HistogramSnapshot.ofQuantile, hs]
  simp [List.lookup]


/-! ## Unrecognised instruments -/

/-- C2: in both styles the visit of an entry that is none of the seven
instrument types writes nothing and returns, and a pass over a registry with
such an entry writes exactly what the pass over the registry without it writes
(and it panics in the one case exactly when it does in the other). -/
theorem unknown_kind_skipped (xs ys : Registry) (n typeName : String) :
    LogVisit n (.other typeName) = some ([], .other typeName) ∧
      LogCompactVisit n (.other typeName) = some ([], .other typeName) ∧
      (Each LogVisit (xs ++ (n, .other typeName) :: ys)).1 = (Each LogVisit (xs ++ ys)).1 ∧
      (Each LogCompactVisit (xs ++ (n, .other typeName) :: ys)).1 =
        (Each LogCompactVisit (xs ++ ys)).1 ∧
      (Each LogVisit (xs ++ (n, .other typeName) :: ys)).2.isSome =
        (Each LogVisit (xs ++ ys)).2.isSome ∧
      (Each LogCompactVisit (xs ++ (n, .other typeName) :: ys)).2.isSome =
        (Each LogCompactVisit (xs ++ ys)).2.isSome :=
  ⟨rfl, rfl,
    (Each_skip LogVisit xs ys n (.other typeName) rfl).1,
    (Each_skip LogCompactVisit xs ys n (.other typeName) rfl).1,
    (Each_skip LogVisit xs ys n (.other typeName) rfl).2,
    (Each_skip LogCompactVisit xs ys n (.other typeName) rfl).2⟩


/-! ## A probe that panics -/

/-- C3, refuted as stated: with a healthcheck whose probe faults in front of
a counter, two ticks of `Log` and of `LogCompact` start one pass, which writes
nothing, and the loop is over: the counter after the healthcheck is never
rendered and no second pass runs. -/
theorem probe_fault_not_contained :
    Log [("db", .healthcheck ⟨none, .fault⟩), ("requests", .counter ⟨42⟩)] 2 = ([[]], none) ∧
      LogCompact [("db", .healthcheck ⟨none, .fault⟩), ("requests", .counter ⟨42⟩)] 2 =
        ([[]], none) ∧
      written LogVisit "requests" (.counter ⟨42⟩) ≠ [] ∧
      written LogCompactVisit "requests" (.counter ⟨42⟩) ≠ [] := by
  refine ⟨rfl, rfl, ?_, ?_⟩ <;> simp [written, LogVisit, LogCompactVisit]

/-- C3, amended: when a pass reaches a healthcheck whose probe faults, the
visit panics and the panic ends the pass and the loop. The pass has written
what the visits of the entries before the healthcheck wrote, nothing is written
for the healthcheck nor for any entry after it, and no later pass runs, in
`Log` and in `LogCompact` alike. -/
theorem probe_fault_ends_loop (xs ys : Registry) (n : String) (e : Option String) (k : Nat)
    (hxs : xs.all (fun x => !x.2.faults) = true) :
    Log (xs ++ (n, .healthcheck ⟨e, .fault⟩) :: ys) (k + 1) =
        ([xs.flatMap (fun x => written LogVisit x.1 x.2)], none) ∧
      LogCompact (xs ++ (n, .healthcheck ⟨e, .fault⟩) :: ys) (k + 1) =
        ([xs.flatMap (fun x => written LogCompactVisit x.1 x.2)], none) := by
  simp only [List.all_eq_true] at hxs
  constructor
  · have h := Each_of_panic LogVisit xs ys n (.healthcheck ⟨e, .fault⟩)
      (fun x hx => by rw [LogVisit_isSome]; exact hxs x hx) rfl
    simp [Log, ticks, h]
  · have h := Each_of_panic LogCompactVisit xs ys n (.healthcheck ⟨e, .fault⟩)
      (fun x hx => by rw [LogCompactVisit_isSome]; exact hxs x hx) rfl
    simp [LogCompact, ticks, h]

/-- The amended C3 at a registry with a gauge before the faulting healthcheck
and a counter after it, for three ticks. -/
theorem probe_fault_ends_loop_witness :
    Log ([("depth", .gauge ⟨7⟩)] ++ ("db", .healthcheck ⟨some "down", .fault⟩) ::
          [("requests", .counter ⟨42⟩)]) (2 + 1) =
        ([[("depth", Instrument.gauge ⟨7⟩)].flatMap (fun x => written LogVisit x.1 x.2)],
          none) ∧
      LogCompact ([("depth", .gauge ⟨7⟩)] ++ ("db", .healthcheck ⟨some "down", .fault⟩) ::
          [("requests", .counter ⟨42⟩)]) (2 + 1) =
        ([[("depth", Instrument.gauge ⟨7⟩)].flatMap
            (fun x => written LogCompactVisit x.1 x.2)], none) :=
  probe_fault_ends_loop [("depth", .gauge ⟨7⟩)] [("requests", .counter ⟨42⟩)] "db"
    (some "down") 2 (by decide)


/-! ## The passes of the loop -/

/-- C4, refuted as stated: with a healthcheck whose probe faults between a
counter and a gauge, two ticks give one pass instead of two, and that pass
writes the counter's block only: the gauge is not visited. -/
theorem passes_cut_short_by_fault :
    (Log [("requests", .counter ⟨42⟩), ("db", .healthcheck ⟨none, .fault⟩),
          ("depth", .gauge ⟨7⟩)] 2).1 =
        [written LogVisit "requests" (.counter ⟨42⟩)] ∧
      (Log [("requests", .counter ⟨42⟩), ("db", .healthcheck ⟨none, .fault⟩),
          ("depth", .gauge ⟨7⟩)] 2).1.length ≠ 2 ∧
      (LogCompact [("requests", .counter ⟨42⟩), ("db", .healthcheck ⟨none, .fault⟩),
          ("depth", .gauge ⟨7⟩)] 2).1 =
        [written LogCompactVisit "requests" (.counter ⟨42⟩)] ∧
      (LogCompact [("requests", .counter ⟨42⟩), ("db", .healthcheck ⟨none, .fault⟩),
          ("depth", .gauge ⟨7⟩)] 2).1.length ≠ 2 ∧
      written LogVisit "depth" (.gauge ⟨7⟩) ≠ [] ∧
      written LogCompactVisit "depth" (.gauge ⟨7⟩) ≠ [] := by
  refine ⟨rfl, by decide, rfl, by decide, ?_, ?_⟩ <;>
    simp [written, LogVisit, LogCompactVisit]

/-- C4, amended: for every registry none of whose healthcheck probes faults
and every number `k` of ticks, `Log` and `LogCompact` perform exactly `k`
passes, one after the other; pass number `j` writes the concatenation, in the
iteration order, of what the visit of each entry writes, each entry of the
registry left by the `j` passes before being visited once; and a pass over the
empty registry writes nothing. -/
theorem passes_without_fault (r : Registry) (k : Nat)
    (h : r.all (fun x => !x.2.faults) = true) :
    (Log r k).1 = (List.range k).map
        (fun j => ((visited LogVisit)^[j] r).flatMap (fun x => written LogVisit x.1 x.2)) ∧
      (Log r k).1.length = k ∧
      (Log r k).2 = some ((visited LogVisit)^[k] r) ∧
      (LogCompact r k).1 = (List.range k).map
        (fun j => ((visited LogCompactVisit)^[j] r).flatMap
          (fun x => written LogCompactVisit x.1 x.2)) ∧
      (LogCompact r k).1.length = k ∧
      (LogCompact r k).2 = some ((visited LogCompactVisit)^[k] r) ∧
      (Log [] k).1 = List.replicate k [] ∧
      (LogCompact [] k).1 = List.replicate k [] := by
  have hv := ticks_of_returns (Each LogVisit)
    (fun r => r.flatMap (fun x => written LogVisit x.1 x.2)) (visited LogVisit)
    (fun r => r.all (fun x => !x.2.faults) = true)
    (fun r hr => ⟨Each_of_isSome LogVisit r (fun x hx => by
        rw [LogVisit_isSome]; exact List.all_eq_true.mp hr x hx),
      visited_all_not_faults LogVisit faults_after_LogVisit r hr⟩)
  have hc := ticks_of_returns (Each LogCompactVisit)
    (fun r => r.flatMap (fun x => written LogCompactVisit x.1 x.2)) (visited LogCompactVisit)
    (fun r => r.all (fun x => !x.2.faults) = true)
    (fun r hr => ⟨Each_of_isSome LogCompactVisit r (fun x hx => by
        rw [LogCompactVisit_isSome]; exact List.all_eq_true.mp hr x hx),
      visited_all_not_faults LogCompactVisit faults_after_LogCompactVisit r hr⟩)
  have fixV : ∀ j, (visited LogVisit)^[j] [] = [] := fun j =>
    Function.iterate_fixed rfl j
  have fixC : ∀ j, (visited LogCompactVisit)^[j] [] = [] := fun j =>
    Function.iterate_fixed rfl j
  refine ⟨?_, ?_, ?_, ?_, ?_, ?_, ?_, ?_⟩
  · rw [Log, hv k r h]
  · rw [Log, hv k r h]; simp
  · rw [Log, hv k r h]
  · rw [LogCompact, hc k r h]
  · rw [LogCompact, hc k r h]; simp
  · rw [LogCompact, hc k r h]
  · rw [Log, hv k [] rfl]
    simp [fixV, List.eq_replicate_iff]
  · rw [LogCompact, hc k [] rfl]
    simp [fixC, List.eq_replicate_iff]

/-- The amended C4 at a registry with a counter and a healthy healthcheck,
for two ticks. -/
theorem passes_without_fault_witness :
    (Log [("requests", .counter ⟨42⟩), ("db", .healthcheck ⟨some "down", .healthy⟩)] 2).1 =
        (List.range 2).map (fun j => ((visited LogVisit)^[j]
          [("requests", .counter ⟨42⟩), ("db", .healthcheck ⟨some "down", .healthy⟩)]).flatMap
            (fun x => written LogVisit x.1 x.2)) ∧
      (Log [("requests", .counter ⟨42⟩),
          ("db", .healthcheck ⟨some "down", .healthy⟩)] 2).1.length = 2 ∧
      (Log [("requests", .counter ⟨42⟩), ("db", .healthcheck ⟨some "down", .healthy⟩)] 2).2 =
        some ((visited LogVisit)^[2]
          [("requests", .counter ⟨42⟩), ("db", .healthcheck ⟨some "down", .healthy⟩)]) ∧
      (LogCompact [("requests", .counter ⟨42⟩),
          ("db", .healthcheck ⟨some "down", .healthy⟩)] 2).1 =
        (List.range 2).map (fun j => ((visited LogCompactVisit)^[j]
          [("requests", .counter ⟨42⟩), ("db", .healthcheck ⟨some "down", .healthy⟩)]).flatMap
            (fun x => written LogCompactVisit x.1 x.2)) ∧
      (LogCompact [("requests", .counter ⟨42⟩),
          ("db", .healthcheck ⟨some "down", .healthy⟩)] 2).1.length = 2 ∧
      (LogCompact [("requests", .counter ⟨42⟩),
          ("db", .healthcheck ⟨some "down", .healthy⟩)] 2).2 =
        some ((visited LogCompactVisit)^[2]
          [("requests", .counter ⟨42⟩), ("db", .healthcheck ⟨some "down", .healthy⟩)]) ∧
      (Log [] 2).1 = List.replicate 2 [] ∧
      (LogCompact [] 2).1 = List.replicate 2 [] :=
  passes_without_fault
    [("requests", .counter ⟨42⟩), ("db", .healthcheck ⟨some "down", .healthy⟩)] 2 (by decide)


/-! ## Healthchecks -/

/-- C5: for every healthcheck whose probe reports no error, whatever error
`e` it held before, both visits run the probe and then read the error: the
visit returns, the error operand is the nil error, the error field of the line
is the text `<nil>`, and the healthcheck holds no error afterwards. -/
theorem healthy_probe_shows_nil (n : String) (e : Option String) :
    (written LogVisit n (.healthcheck ⟨e, .healthy⟩)).map Call.text =
        ["healthcheck " ++ n ++ "\n", "  error:       " ++ "<nil>" ++ "\n"] ∧
      (written LogCompactVisit n (.healthcheck ⟨e, .healthy⟩)).map Call.text =
        ["check " ++ (String.mk (List.replicate (20 - n.length) ' ') ++ n) ++
          ",error: " ++ "<nil>" ++ "\n"] ∧
      shown (written LogVisit n (.healthcheck ⟨e, .healthy⟩)) "error" = some (.error none) ∧
      shown (written LogCompactVisit n (.healthcheck ⟨e, .healthy⟩)) "error" =
        some (.error none) ∧
      (LogVisit n (.healthcheck ⟨e, .healthy⟩)).map Prod.snd =
        some (.healthcheck ⟨none, .healthy⟩) ∧
      (LogCompactVisit n (.healthcheck ⟨e, .healthy⟩)).map Prod.snd =
        some (.healthcheck ⟨none, .healthy⟩) := by
  refine ⟨?_, ?_, ?_, ?_, rfl, rfl⟩
  · simp only [written, LogVisit, Healthcheck.Check, Healthcheck.Error, Call.text, Printf,
      List.map, Sprintf, pieces_healthcheck, pieces_error]
    refine congrArg₂ _ ?_ (congrArg₂ _ ?_ rfl) <;> apply String.ext <;>
      simp [renderPieces, formatVerb, padLeft]
  · simp only [written, LogCompactVisit, Healthcheck.Check, Healthcheck.Error, Call.text,
      Printf, List.map, Sprintf, pieces_compact_check]
    refine congrArg₂ _ ?_ rfl
    apply String.ext
    simp [renderPieces, formatVerb, padLeft]
  · simp only [shown, fieldsOf, written, LogVisit, Healthcheck.Check, Healthcheck.Error,
      List.flatMap, List.map, List.flatten, Call.fields, Printf, pieces_healthcheck,
      pieces_error, fieldsAux]
    simp [label, List.lookup]
  · simp only [shown, fieldsOf, written, LogCompactVisit, Healthcheck.Check,
      Healthcheck.Error, List.flatMap, List.map, List.flatten, Call.fields, Printf,
      pieces_compact_check, fieldsAux]
    simp [label, List.lookup]


/-! ## The fields of a meter -/

/-- C6, refuted as stated: for the meter snapshot with count 3 and rates 1, 2,
7 (15-minute) and 4 (mean), the verbose block shows the 15-minute rate 7 and
the compact line does not; the compact line is the same when the 15-minute
rate is 8. -/
theorem compact_meter_omits_rate15 :
    Value.float 7 ∈ (fieldsOf (written LogVisit "m" (.meter ⟨⟨3, 1, 2, 7, 4⟩⟩))).map Prod.snd ∧
      Value.float 7 ∉
        (fieldsOf (written LogCompactVisit "m" (.meter ⟨⟨3, 1, 2, 7, 4⟩⟩))).map Prod.snd ∧
      written LogCompactVisit "m" (.meter ⟨⟨3, 1, 2, 7, 4⟩⟩) =
        written LogCompactVisit "m" (.meter ⟨⟨3, 1, 2, 8, 4⟩⟩) := by
  refine ⟨?_, ?_, rfl⟩
  · rw [fields_verbose_meter]; simp
  · rw [fields_compact_meter]; simp

/-- C6, amended: for every meter, the verbose block shows the count, the
1-minute, 5-minute and 15-minute rates and the mean rate of the snapshot; the
compact line shows the count, the 1-minute and 5-minute rates and the mean
rate of the same snapshot, and does not depend on the 15-minute rate. -/
theorem Meter_fields (n : String) (m : MeterSnapshot) (x : ℚ) :
    fieldsOf (written LogVisit n (.meter ⟨m⟩)) =
        [("meter", .str n), ("count", .int m.Count),
         ("1-min rate", .float m.Rate1), ("5-min rate", .float m.Rate5),
         ("15-min rate", .float m.Rate15), ("mean rate", .float m.RateMean)] ∧
      fieldsOf (written LogCompactVisit n (.meter ⟨m⟩)) =
        [("meter", .str n), ("count", .int m.Count), ("1mrate", .float m.Rate1),
         ("5mrate", .float m.Rate5), ("meanrate", .float m.RateMean)] ∧
      written LogCompactVisit n (.meter ⟨{ m with Rate15 := x }⟩) =
        written LogCompactVisit n (.meter ⟨m⟩) :=
  ⟨fields_verbose_meter n m, fields_compact_meter n m, rfl⟩


/-! ## The percentiles of a histogram and of a timer -/

/-- C7: for every histogram and every timer, let `ps` be what the snapshot
answers to the request of the quantiles 0.5, 0.75, 0.95, 0.99, 0.999. The
verbose block shows the five values of `ps` under `median`, `75%`, `95%`, `99%`
and `99.9%`. The compact line has the fields listed here and no other: under
`95%` and `99%` it shows the third and the fourth value of `ps`, converted to a
duration in seconds, and none of its fields holds the first, second or fifth
value. So the compact line is the same for any other snapshot with the same
count, min, max and mean (and mean rate, for a timer) whose answer to this
request has the same third and fourth value. -/
theorem percentiles_of_both_styles (n : String) (h : HistogramSnapshot) (t : TimerSnapshot)
    (ps pt : List ℚ)
    (hps : h.Percentiles 
          [float64 0.5, float64 0.75, float64 0.95, float64 0.99, float64 0.999] = ps)
    (hpt : t.Percentiles 
          [float64 0.5, float64 0.75, float64 0.95, float64 0.99, float64 0.999] = pt) :
    ([ "median", "75%", "95%", "99%", "99.9%" ].map
          (shown (written LogVisit n (.histogram ⟨h⟩))) =
        ps.map (fun p => some (.float p)) ∧
      fieldsOf (written LogCompactVisit n (.histogram ⟨h⟩)) =
        [("hgram", .str n), ("count", .int h.Count),
         ("min", .float (Seconds (Duration h.Min))),
         ("mean", .float (Seconds (DurationOfFloat h.Mean))),
         ("95%", .float (Seconds (DurationOfFloat (index ps 2)))),
         ("99%", .float (Seconds (DurationOfFloat (index ps 3)))),
         ("max", .float (Seconds (Duration h.Max)))] ∧
      ∀ k : HistogramSnapshot, k.Count = h.Count → k.Min = h.Min → k.Max = h.Max →
        k.Mean = h.Mean →
        index (k.Percentiles 
          [float64 0.5, float64 0.75, float64 0.95, float64 0.99, float64 0.999]) 2 = index ps 2 →
        index (k.Percentiles 
          [float64 0.5, float64 0.75, float64 0.95, float64 0.99, float64 0.999]) 3 = index ps 3 →
        written LogCompactVisit n (.histogram ⟨k⟩) =
          written LogCompactVisit n (.histogram ⟨h⟩)) ∧
    ([ "median", "75%", "95%", "99%", "99.9%" ].map
          (shown (written LogVisit n (.timer ⟨t⟩))) =
        pt.map (fun p => some (.float p)) ∧
      fieldsOf (written LogCompactVisit n (.timer ⟨t⟩)) =
        [("timer", .str n), ("count", .int t.Count), ("meanrate", .float t.RateMean),
         ("min", .float (Seconds (Duration t.Min))),
         ("mean", .float (Seconds (DurationOfFloat t.Mean))),
         ("95%", .float (Seconds (DurationOfFloat (index pt 2)))),
         ("99%", .float (Seconds (DurationOfFloat (index pt 3)))),
         ("max", .float (Seconds (Duration t.Max)))] ∧
      ∀ k : TimerSnapshot, k.Count = t.Count → k.Min = t.Min → k.Max = t.Max →
        k.Mean = t.Mean → k.RateMean = t.RateMean →
        index (k.Percentiles 
          [float64 0.5, float64 0.75, float64 0.95, float64 0.99, float64 0.999]) 2 = index pt 2 →
        index (k.Percentiles 
          [float64 0.5, float64 0.75, float64 0.95, float64 0.99, float64 0.999]) 3 = index pt 3 →
        written LogCompactVisit n (.timer ⟨k⟩) =
          written LogCompactVisit n (.timer ⟨t⟩)) := by
  have hlen : ps.length = 5 := by rw [← hps]; exact h.Percentiles_length _
  have tlen : pt.length = 5 := by rw [← hpt]; exact t.Percentiles_length _
  refine ⟨⟨?_, ?_, ?_⟩, ⟨?_, ?_, ?_⟩⟩
  · conv_rhs => rw [eq_of_length_five ps hlen]
    simp only [List.map, shown, written, LogVisit, fieldsOf, List.flatMap, List.flatten,
      Call.fields, Printf, pieces_histogram, pieces_count, pieces_min, pieces_max,
      pieces_mean, pieces_stddev, pieces_median, pieces_p75, pieces_p95, pieces_p99,
      pieces_p999, fieldsAux, hps]
    simp [label, List.lookup]
  · simp only [written, LogCompactVisit, fieldsOf, List.flatMap, List.map, List.flatten,
      Call.fields, Printf, pieces_compact_hgram, fieldsAux, hps]
    simp [label]
  · intro k h1 h2 h3 h4 h5 h6
    simp only [written, LogCompactVisit, h1, h2, h3, h4, h5, h6, hps]
  · conv_rhs => rw [eq_of_length_five pt tlen]
    simp only [List.map, shown, written, LogVisit, fieldsOf, List.flatMap, List.flatten,
      Call.fields, Printf, pieces_timer, pieces_count, pieces_min, pieces_max, pieces_mean,
      pieces_stddev, pieces_median, pieces_p75, pieces_p95, pieces_p99, pieces_p999,
      pieces_rate1, pieces_rate5, pieces_rate15, pieces_rateMean, fieldsAux, hpt]
    simp [label, List.lookup]
  · simp only [written, LogCompactVisit, fieldsOf, List.flatMap, List.map, List.flatten,
      Call.fields, Printf, pieces_compact_timer, fieldsAux, hpt]
    simp [label]
  · intro k h1 h2 h3 h4 h5 h6 h7
    simp only [written, LogCompactVisit, h1, h2, h3, h4, h5, h6, h7, hpt]

/-- C7 at the histogram of the values 10, 20, 30, 40, 50, whose answer to the
request is 30, 45, 50, 50, 50, at a timer of the same durations, and at
snapshots that answer 50 to every quantile. -/
theorem percentiles_of_both_styles_witness :
    ([ "median", "75%", "95%", "99%", "99.9%" ].map
          (shown (written LogVisit "latency" (.histogram
            ⟨HistogramSnapshot.ofQuantile 5 10 50 30 14 (fun q =>
              if q = float64 0.5 then 30 else if q = float64 0.75 then 45 else 50)⟩))) =
        [30, 45, 50, 50, 50].map (fun p => some (.float p)) ∧
      fieldsOf (written LogCompactVisit "latency" (.histogram
            ⟨HistogramSnapshot.ofQuantile 5 10 50 30 14 (fun q =>
              if q = float64 0.5 then 30 else if q = float64 0.75 then 45 else 50)⟩)) =
        [("hgram", .str "latency"), ("count", .int 5),
         ("min", .float (Seconds (Duration 10))),
         ("mean", .float (Seconds (DurationOfFloat 30))),
         ("95%", .float (Seconds (DurationOfFloat (index [30, 45, 50, 50, 50] 2)))),
         ("99%", .float (Seconds (DurationOfFloat (index [30, 45, 50, 50, 50] 3)))),
         ("max", .float (Seconds (Duration 50)))] ∧
      written LogCompactVisit "latency" (.histogram
            ⟨HistogramSnapshot.ofQuantile 5 10 50 30 0 (fun _ => 50)⟩) =
        written LogCompactVisit "latency" (.histogram
            ⟨HistogramSnapshot.ofQuantile 5 10 50 30 14 (fun q =>
              if q = float64 0.5 then 30 else if q = float64 0.75 then 45 else 50)⟩)) ∧
    ([ "median", "75%", "95%", "99%", "99.9%" ].map
          (shown (written LogVisit "latency" (.timer
            ⟨TimerSnapshot.ofQuantile 5 10 50 30 14 (fun q =>
              if q = float64 0.5 then 30 else if q = float64 0.75 then 45 else 50)
              1 2 3 4⟩))) =
        [30, 45, 50, 50, 50].map (fun p => some (.float p)) ∧
      fieldsOf (written LogCompactVisit "latency" (.timer
            ⟨TimerSnapshot.ofQuantile 5 10 50 30 14 (fun q =>
              if q = float64 0.5 then 30 else if q = float64 0.75 then 45 else 50)
              1 2 3 4⟩)) =
        [("timer", .str "latency"), ("count", .int 5), ("meanrate", .float 4),
         ("min", .float (Seconds (Duration 10))),
         ("mean", .float (Seconds (DurationOfFloat 30))),
         ("95%", .float (Seconds (DurationOfFloat (index [30, 45, 50, 50, 50] 2)))),
         ("99%", .float (Seconds (DurationOfFloat (index [30, 45, 50, 50, 50] 3)))),
         ("max", .float (Seconds (Duration 50)))] ∧
      written LogCompactVisit "latency" (.timer
            ⟨TimerSnapshot.ofQuantile 5 10 50 30 0 (fun _ => 50) 7 8 9 4⟩) =
        written LogCompactVisit "latency" (.timer
            ⟨TimerSnapshot.ofQuantile 5 10 50 30 14 (fun q =>
              if q = float64 0.5 then 30 else if q = float64 0.75 then 45 else 50)
              1 2 3 4⟩)) := by
  obtain ⟨⟨a1, a2, a3⟩, ⟨b1, b2, b3⟩⟩ := percentiles_of_both_styles "latency"
    (HistogramSnapshot.ofQuantile 5 10 50 30 14 (fun q =>
      if q = float64 0.5 then 30 else if q = float64 0.75 then 45 else 50))
    (TimerSnapshot.ofQuantile 5 10 50 30 14 (fun q =>
      if q = float64 0.5 then 30 else if q = float64 0.75 then 45 else 50) 1 2 3 4)
    [30, 45, 50, 50, 50] [30, 45, 50, 50, 50] (by decide!) (by decide!)
  exact ⟨⟨a1, a2, a3 (HistogramSnapshot.ofQuantile 5 10 50 30 0 (fun _ => 50))
      rfl rfl rfl rfl rfl rfl⟩,
    ⟨b1, b2, b3 (TimerSnapshot.ofQuantile 5 10 50 30 0 (fun _ => 50) 7 8 9 4)
      rfl rfl rfl rfl rfl rfl rfl⟩⟩

/-! ## The verbose counter block -/

/-- C9: for every counter with name `n` and count `c`, the verbose visit writes
exactly two lines: `counter ` followed by `n`, and `  count:       ` followed by
the decimal form of `c` right-aligned by blanks in a field of at least 9
characters; for `requests` and 42 these are `counter requests` and a line
showing `42`. -/
theorem Log_counter_block (n : String) (c : Counter) :
    (written LogVisit n (.counter c)).map Call.text =
        ["counter " ++ n ++ "\n",
         "  count:       " ++
           (String.mk (List.replicate (9 - (toString c.Count).length) ' ') ++ toString c.Count)
           ++ "\n"] ∧
      9 ≤ (String.mk (List.replicate (9 - (toString c.Count).length) ' ')
            ++ toString c.Count).length ∧
      (written LogVisit "requests" (.counter ⟨42⟩)).map Call.text =
        ["counter requests\n", "  count:              42\n"] := by
  refine ⟨?_, ?_, by decide⟩
  · simp only [written, LogVisit, Call.text, Printf, List.map, Sprintf, pieces_counter,
      pieces_count]
    refine congrArg₂ _ ?_ (congrArg₂ _ ?_ rfl) <;> apply String.ext <;>
      simp [renderPieces, formatVerb, padLeft]
  · generalize toString c.Count = s
    have hlen : (String.mk (List.replicate (9 - s.length) ' ')).length = 9 - s.length := by
      show (List.replicate (9 - s.length) ' ').length = 9 - s.length
      exact List.length_replicate _ _
    rw [String.length_append, hlen]
    omega


/-! ## The verbose timer block -/

/-- C10: for every timer snapshot, the verbose block after its header line is
the verbose block, after its header line, of a histogram snapshot with the same
count, min, max, mean, standard deviation and five percentiles, followed by
the four rate lines of the verbose block of a meter snapshot with the same four
rates: the same calls (format and operand) and hence the same text, in the same
order. -/
theorem Timer_block_is_Histogram_then_rates (n nh nm : String) (t : TimerSnapshot)
    (h : HistogramSnapshot) (m : MeterSnapshot)
    (hCount : h.Count = t.Count) (hMin : h.Min = t.Min) (hMax : h.Max = t.Max)
    (hMean : h.Mean = t.Mean) (hStdDev : h.StdDev = t.StdDev)
    (hPs : h.Percentiles 
        [float64 0.5, float64 0.75, float64 0.95, float64 0.99, float64 0.999] =
      t.Percentiles 
        [float64 0.5, float64 0.75, float64 0.95, float64 0.99, float64 0.999])
    (hRate1 : m.Rate1 = t.Rate1) (hRate5 : m.Rate5 = t.Rate5)
    (hRate15 : m.Rate15 = t.Rate15) (hRateMean : m.RateMean = t.RateMean) :
    (written LogVisit n (.timer ⟨t⟩)).tail =
        (written LogVisit nh (.histogram ⟨h⟩)).tail ++
          (written LogVisit nm (.meter ⟨m⟩)).drop 2 ∧
      ((written LogVisit n (.timer ⟨t⟩)).map Call.text).tail =
        ((written LogVisit nh (.histogram ⟨h⟩)).map Call.text).tail ++
          ((written LogVisit nm (.meter ⟨m⟩)).map Call.text).drop 2 ∧
      (written LogVisit nh (.histogram ⟨h⟩)).length = 11 ∧
      (written LogVisit nm (.meter ⟨m⟩)).length = 6 := by
  have key : (written LogVisit n (.timer ⟨t⟩)).tail =
      (written LogVisit nh (.histogram ⟨h⟩)).tail ++
        (written LogVisit nm (.meter ⟨m⟩)).drop 2 := by
    simp only [written, LogVisit, hCount, hMin, hMax, hMean, hStdDev, hPs, hRate1, hRate5,
      hRate15, hRateMean, List.tail_cons, List.drop_succ_cons, List.drop_zero,
      List.cons_append, List.nil_append]
  refine ⟨key, ?_, rfl, rfl⟩
  rw [← List.map_tail, key, List.map_append, List.map_tail, List.map_drop]

/-- C10 at a timer, a histogram and a meter that saw the single duration 5. -/
theorem Timer_block_is_Histogram_then_rates_witness :
    (written LogVisit "t"
          (.timer ⟨TimerSnapshot.ofQuantile 1 5 5 5 0 (fun _ => 5) 1 2 3 4⟩)).tail =
        (written LogVisit "h"
          (.histogram ⟨HistogramSnapshot.ofQuantile 1 5 5 5 0 (fun _ => 5)⟩)).tail ++
          (written LogVisit "m" (.meter ⟨⟨9, 1, 2, 3, 4⟩⟩)).drop 2 ∧
      ((written LogVisit "t"
          (.timer ⟨TimerSnapshot.ofQuantile 1 5 5 5 0 (fun _ => 5) 1 2 3 4⟩)).map
            Call.text).tail =
        ((written LogVisit "h"
          (.histogram ⟨HistogramSnapshot.ofQuantile 1 5 5 5 0 (fun _ => 5)⟩)).map
            Call.text).tail ++
          ((written LogVisit "m" (.meter ⟨⟨9, 1, 2, 3, 4⟩⟩)).map Call.text).drop 2 ∧
      (written LogVisit "h"
          (.histogram ⟨HistogramSnapshot.ofQuantile 1 5 5 5 0 (fun _ => 5)⟩)).length = 11 ∧
      (written LogVisit "m" (.meter ⟨⟨9, 1, 2, 3, 4⟩⟩)).length = 6 :=
  Timer_block_is_Histogram_then_rates "t" "h" "m"
    (TimerSnapshot.ofQuantile 1 5 5 5 0 (fun _ => 5) 1 2 3 4)
    (HistogramSnapshot.ofQuantile 1 5 5 5 0 (fun _ => 5)) ⟨9, 1, 2, 3, 4⟩
    rfl rfl rfl rfl rfl rfl rfl rfl rfl rfl

end Metrics
